import Mathlib

/-!
A shallow embedding of the UNO game engine from `uno.py`: the card and
player data model, full-deck construction, drawing with
reshuffle-on-empty, turn rotation, the play-legality check, card-play
resolution including the Wild Draw Four challenge sub-protocol, and
end-of-round scoring.

Randomness (`random.shuffle`) is modelled by an explicit shuffle-function
parameter `sh`; `IsShuffle sh` states that it permutes its input.
Driver input (color choices, challenge decisions) is modelled by explicit
parameters.  Operations that can raise a Python `IndexError` return
`Option`, with `none` standing for the uncaught exception.  Python's
implicit `None` return value of `__can_be_played__` is rendered as the
falsy `false`.  `print` calls are modelled only through the list
accesses they perform (which can themselves raise `IndexError`).
-/

/-- Enumeration of colors of UNO cards (`CardColor` in the source). -/
inductive CardColor where
  | RED
  | YELLOW
  | GREEN
  | BLUE
  | BLACK
  deriving DecidableEq

/-- Numeric value of a `CardColor`, as assigned by the source enum. -/
def CardColor.value : CardColor → Nat
  | .RED => 1
  | .YELLOW => 2
  | .GREEN => 3
  | .BLUE => 4
  | .BLACK => 5

/-- `CardColor(n)` of the source: the color with numeric value `n`
(only used with `n` between 1 and 4). -/
def CardColor.ofValue : Nat → CardColor
  | 1 => .RED
  | 2 => .YELLOW
  | 3 => .GREEN
  | 4 => .BLUE
  | _ => .BLACK

/-- Enumeration of types of UNO cards (`CardType` in the source). -/
inductive CardType where
  | ZERO
  | ONE
  | TWO
  | THREE
  | FOUR
  | FIVE
  | SIX
  | SEVEN
  | EIGHT
  | NINE
  | SKIP
  | REVERSE
  | DRAW_TWO
  | WILD
  | WILD_DRAW_FOUR
  deriving DecidableEq

/-- Numeric value of a `CardType`, as assigned by the source enum. -/
def CardType.value : CardType → Nat
  | .ZERO => 0
  | .ONE => 1
  | .TWO => 2
  | .THREE => 3
  | .FOUR => 4
  | .FIVE => 5
  | .SIX => 6
  | .SEVEN => 7
  | .EIGHT => 8
  | .NINE => 9
  | .SKIP => 10
  | .REVERSE => 11
  | .DRAW_TWO => 12
  | .WILD => 13
  | .WILD_DRAW_FOUR => 14

/-- `CardType(n)` of the source: the type with numeric value `n`
(only used with `n` between 1 and 12 when building the deck). -/
def CardType.ofValue : Nat → CardType
  | 0 => .ZERO
  | 1 => .ONE
  | 2 => .TWO
  | 3 => .THREE
  | 4 => .FOUR
  | 5 => .FIVE
  | 6 => .SIX
  | 7 => .SEVEN
  | 8 => .EIGHT
  | 9 => .NINE
  | 10 => .SKIP
  | 11 => .REVERSE
  | 12 => .DRAW_TWO
  | 13 => .WILD
  | _ => .WILD_DRAW_FOUR

/-- An UNO card: a color and a type (class `Card` in the source). -/
structure Card where
  color : CardColor
  type : CardType
  deriving DecidableEq

/-- `Card.equals`: structural equality of two cards. -/
def Card.equals (self card : Card) : Bool :=
  decide (self.color = card.color) && decide (self.type = card.type)

/-- `Card.equals_color`: the two cards have the same color. -/
def Card.equals_color (self card : Card) : Bool :=
  decide (self.color = card.color)

/-- `Card.equals_type`: the two cards have the same type. -/
def Card.equals_type (self card : Card) : Bool :=
  decide (self.type = card.type)

/-- `Card.get_color`: the color of the card. -/
def Card.get_color (self : Card) : CardColor := self.color

/-- `Card.get_type`: the type of the card. -/
def Card.get_type (self : Card) : CardType := self.type

/-- `Card.get_compare_key`: the key used for sorting a hand for display. -/
def Card.get_compare_key (self : Card) : Nat :=
  self.color.value * 100 + self.type.value

/-- Python list index resolution: a nonnegative index counts from the
front, a negative index counts from the back, and an out-of-range index
is an `IndexError`, rendered as `none`. -/
def pyIdx (len : Nat) (i : Int) : Option Nat :=
  if 0 ≤ i then
    if i < (len : Int) then some i.toNat else none
  else
    if 0 ≤ i + (len : Int) then some (i + (len : Int)).toNat else none

/-- Python list read `l[i]` with Python index semantics. -/
def pyGet {α : Type} (l : List α) (i : Int) : Option α :=
  (pyIdx l.length i).bind fun j => l[j]?

/-- Python `del l[i]` with Python index semantics. -/
def pyDel {α : Type} (l : List α) (i : Int) : Option (List α) :=
  (pyIdx l.length i).map l.eraseIdx

/-- An UNO player: a hand of cards and a cumulative score
(class `Player` in the source). -/
structure Player where
  cards : List Card
  score : Int
  deriving DecidableEq

/-- `Player.receive_card`: append `c` to the hand. -/
def Player.receive_card (p : Player) (c : Card) : Player :=
  { p with cards := p.cards ++ [c] }

/-- `Player.discard_card`: delete the card at the given Python index. -/
def Player.discard_card (p : Player) (index : Int) : Option Player :=
  (pyDel p.cards index).map fun cs => { p with cards := cs }

/-- `Player.shuffle_cards`: shuffle the hand in place. -/
def Player.shuffle_cards (sh : List Card → List Card) (p : Player) : Player :=
  { p with cards := sh p.cards }

/-- `Player.sort_cards`: sort the hand ascending by `get_compare_key`.
Python's `sorted(key=...)` is a stable sort by the key; it is modelled
by a stable structural insertion sort on the same key, which computes
the same list. -/
def Player.sort_cards (p : Player) : Player :=
  { p with cards :=
      p.cards.insertionSort fun a b => a.get_compare_key ≤ b.get_compare_key }

/-- `Player.add_score`: add to the cumulative score. -/
def Player.add_score (p : Player) (s : Int) : Player :=
  { p with score := p.score + s }

/-- The state of a single UNO game (class `Game` in the source). -/
structure Game where
  players : List Player
  deck : List Card
  discard : List Card
  wild_color : CardColor
  winner_index : Int
  clockwise : Bool
  turn : Int
  deriving DecidableEq

/-- A shuffle function permutes its input (the contract of
`random.shuffle`, which rearranges a list in place). -/
def IsShuffle (sh : List Card → List Card) : Prop :=
  ∀ l, (sh l).Perm l

/-- `Game.__init_deck__`: the full UNO deck — for each of the four
colors one ZERO and two each of the types with values 1 through 12,
plus four WILD and four WILD_DRAW_FOUR — shuffled at the end. -/
def init_deck (sh : List Card → List Card) : List Card :=
  sh (((List.range 4).flatMap fun ci =>
        Card.mk (CardColor.ofValue (ci + 1)) CardType.ZERO ::
          ((List.range 12).flatMap fun ti =>
            (List.range 2).map fun _ =>
              Card.mk (CardColor.ofValue (ci + 1)) (CardType.ofValue (ti + 1))))
      ++ ((List.range 4).flatMap fun _ =>
        [Card.mk CardColor.BLACK CardType.WILD,
         Card.mk CardColor.BLACK CardType.WILD_DRAW_FOUR]))

/-- `Game.__give_topdeck_to_player__` for the player at Python index
`pi`: if the deck is empty, first move all discard cards but the top
back into the deck (shuffled) and leave the discard holding just its
top; if the deck is then still empty the draw fails silently returning
`False`; otherwise the deck's top card moves to the player's hand and
the call returns `True`. -/
def Game.give_topdeck_to_player (sh : List Card → List Card) (g : Game)
    (pi : Int) : Option (Bool × Game) :=
  match pyIdx g.players.length pi with
  | none => none
  | some i =>
    match g.players[i]? with
    | none => none
    | some pl =>
      -- Move discarded cards to the deck if the deck is empty
      match (if g.deck.isEmpty then
               match g.discard.getLast? with
               | none => none
               | some top => some (sh g.discard.dropLast, [top])
             else some (g.deck, g.discard)) with
      | none => none
      | some s =>
        -- Ran out of cards from deck and discard, so the player cannot draw
        if s.1.isEmpty then
          some (false, { g with deck := s.1, discard := s.2 })
        else
          match s.1.getLast? with
          | none => none
          | some c =>
            some (true, { g with deck := s.1.dropLast, discard := s.2,
                                 players := g.players.set i (pl.receive_card c) })

/-- `Game.__discard_topdeck__`: move the deck's top card onto the
discard pile. -/
def Game.discard_topdeck (g : Game) : Option Game :=
  match g.deck.getLast? with
  | none => none
  | some c => some { g with discard := g.discard ++ [c], deck := g.deck.dropLast }

/-- `Game.__discard_player_card__` for the player at list position `i`:
move that player's card at Python index `card_index` onto the discard
pile. -/
def Game.discard_player_card (g : Game) (i : Nat) (card_index : Int) :
    Option Game :=
  match g.players[i]? with
  | none => none
  | some pl =>
    match pyGet pl.cards card_index with
    | none => none
    | some c =>
      match pl.discard_card card_index with
      | none => none
      | some pl' =>
        some { g with discard := g.discard ++ [c], players := g.players.set i pl' }

/-- `Game.__next_turn__`: advance the turn pointer one seat clockwise or
counterclockwise, wrapping around the seat count. -/
def Game.next_turn (g : Game) : Game :=
  if g.clockwise then
    let t := g.turn + 1
    { g with turn := if (g.players.length : Int) ≤ t then t - g.players.length else t }
  else
    let t := g.turn - 1
    { g with turn := if t < 0 then t + g.players.length else t }

/-- `Game.__can_be_played__`: the legality check of a candidate card
against the discard top and the active wild color.  The source returns
`True` from one of four branches and otherwise falls off the end
returning Python's falsy `None`, rendered here as `false`; reading the
discard top raises `IndexError` on an empty discard, rendered as
`none`.  The check performs no assignment, so it is embedded as a pure
function of the state. -/
def Game.can_be_played (g : Game) (card : Card) : Option Bool :=
  match g.discard.getLast? with
  | none => none
  | some top =>
    if g.wild_color ≠ CardColor.BLACK ∧ card.get_color = g.wild_color then some true
    else if card.equals_color top then some true
    else if card.equals_type top then some true
    else if card.get_color = CardColor.BLACK then some true
    else some false

/-- `totalCards`: the number of cards in circulation — deck plus discard
plus every player's hand. -/
def totalCards (g : Game) : Nat :=
  g.deck.length + g.discard.length + (g.players.map fun p => p.cards.length).sum

/-- The per-card test of the Wild Draw Four legality audit in
`Game.__play_card__`.  A WILD_DRAW_FOUR in hand is ignored; when the
card beneath the played one is not BLACK, a hand card of the beneath
card's color flags the play illegal.  When the beneath card is BLACK
the source compares `card_it.get_color` — the bound method, the call
parentheses are missing — with `self.wild_color`; in Python a method
object never equals a `CardColor`, so that comparison is constantly
`False`, rendered here literally as the conjunct `False`. -/
def wd4_flags_illegal (beneath : Card) (wild : CardColor) (card_it : Card) : Bool :=
  if card_it.get_type = CardType.WILD_DRAW_FOUR then false
  else if beneath.get_color = CardColor.BLACK ∧ False then true
  else if beneath.get_color ≠ CardColor.BLACK ∧ card_it.equals_color beneath then true
  else false

/-- The Wild Draw Four legality audit of `Game.__play_card__`:
`is_legal_wd4` starts `True` and the loop breaks to `False` on the
first hand card that flags the play illegal. -/
def wd4_audit (cards : List Card) (beneath : Card) (wild : CardColor) : Bool :=
  !(cards.any (wd4_flags_illegal beneath wild))

/-- The Wild Draw Four legality audit as the specification words it:
the play is illegal exactly when the hand holds a card, other than a
WILD_DRAW_FOUR, whose color matches the beneath card's color — or, when
the beneath card is itself wild (BLACK), whose color matches the active
wild color then in effect. -/
def wd4_audit_spec (cards : List Card) (beneath : Card) (wild : CardColor) : Bool :=
  !(cards.any fun c =>
      decide (c.get_type ≠ CardType.WILD_DRAW_FOUR) &&
        (if beneath.get_color = CardColor.BLACK then decide (c.get_color = wild)
         else c.equals_color beneath))

/-- `Game.sort_hand`: sort the hand of the player at Python index `pi`
(the source's `self.players[...].sort_cards()`). -/
def Game.sort_hand (g : Game) (pi : Int) : Option Game :=
  match pyIdx g.players.length pi with
  | none => none
  | some i =>
    match g.players[i]? with
    | none => none
    | some pl => some { g with players := g.players.set i pl.sort_cards }

/-- The penalty-draw loops of the Wild Draw Four branch: `k` times, give
the topdeck to the player at Python index `pi` and print that player's
last card (the print's `get_cards()[-1]` raises `IndexError` on an
empty hand). -/
def Game.draw_print_loop (sh : List Card → List Card) (pi : Int) :
    Nat → Game → Option Game
  | 0, g => some g
  | k + 1, g =>
    match g.give_topdeck_to_player sh pi with
    | none => none
    | some r =>
      match pyIdx r.2.players.length pi with
      | none => none
      | some i =>
        match r.2.players[i]? with
        | none => none
        | some pl =>
          match pyGet pl.cards (-1) with
          | none => none
          | some _ => Game.draw_print_loop sh pi k r.2

/-- The Skip branch of `Game.__play_card__`: announce and skip the next
player by advancing the turn twice.  The branch's trailing
`self.wild_color == CardColor["BLACK"]` is an equality comparison, not
an assignment, hence a no-op on the state. -/
def Game.play_skip (g : Game) : Game := g.next_turn.next_turn

/-- The Draw Two branch of `Game.__play_card__`: advance to the next
player, deal them two topdeck cards, print the two drawn positions
(`get_cards()[-2]` and `[-1]`, each a possible `IndexError`), sort that
hand, and advance again.  The trailing wild-color comparison is a
no-op. -/
def Game.play_draw_two (sh : List Card → List Card) (g : Game) : Option Game :=
  match (g.next_turn).give_topdeck_to_player sh (g.next_turn).turn with
  | none => none
  | some r1 =>
    match r1.2.give_topdeck_to_player sh r1.2.turn with
    | none => none
    | some r2 =>
      match pyIdx r2.2.players.length r2.2.turn with
      | none => none
      | some i =>
        match r2.2.players[i]? with
        | none => none
        | some pl =>
          match pyGet pl.cards (-2), pyGet pl.cards (-1) with
          | some _, some _ =>
            (match r2.2.sort_hand r2.2.turn with
             | none => none
             | some g4 => some g4.next_turn)
          | _, _ => none

/-- The Reverse branch of `Game.__play_card__`: with exactly two
players it acts the same way as a Skip card (advance twice); otherwise
it flips `clockwise` and advances once.  The trailing wild-color
comparison is a no-op. -/
def Game.play_reverse (g : Game) : Game :=
  if g.players.length = 2 then
    g.next_turn.next_turn
  else
    ({ g with clockwise := !g.clockwise }).next_turn

/-- The Wild branch of `Game.__play_card__`: the driver's chosen color
becomes the wild color, then the turn advances. -/
def Game.play_wild (chosenColor : CardColor) (g : Game) : Game :=
  ({ g with wild_color := chosenColor }).next_turn

/-- The Wild Draw Four branch of `Game.__play_card__`: audit legality
(before the color prompt), set the chosen color, advance to the next
seat and offer a challenge.  No challenge: that seat draws 4.
Challenge with the audit saying legal: the challenger draws 6 after the
original player's hand is revealed and reshuffled.  Challenge with the
audit saying illegal: the original player draws 4 instead.  In every
case the turn then advances once more. -/
def Game.play_wd4 (sh : List Card → List Card) (chosenColor : CardColor)
    (challenge : Bool) (g : Game) : Option Game :=
  -- Determine if the Wild Draw Four card was legal
  match pyIdx g.players.length g.turn with
  | none => none
  | some ti =>
    match g.players[ti]? with
    | none => none
    | some pl =>
      match pyGet g.discard (-2) with
      | none => none
      | some beneath =>
        let is_legal_wd4 := wd4_audit pl.cards beneath g.wild_color
        -- Choose a colour for the wild
        let g1 : Game := { g with wild_color := chosenColor }
        let challenged_index := g1.turn
        -- Give the next player an opportunity to challenge
        let g2 := g1.next_turn
        if challenge then
          -- The challenged player's hand is revealed, then reshuffled
          match pyIdx g2.players.length challenged_index with
          | none => none
          | some ci =>
            match g2.players[ci]? with
            | none => none
            | some cpl =>
              let g3 : Game :=
                { g2 with players := g2.players.set ci (Player.shuffle_cards sh cpl) }
              if is_legal_wd4 then
                -- The challenge fails: the challenger draws six and is skipped
                match Game.draw_print_loop sh g3.turn 6 g3 with
                | none => none
                | some g4 =>
                  match g4.sort_hand g4.turn with
                  | none => none
                  | some g5 => some g5.next_turn
              else
                -- The challenge succeeds: the original player draws four
                match Game.draw_print_loop sh challenged_index 4 g3 with
                | none => none
                | some g4 =>
                  match g4.sort_hand challenged_index with
                  | none => none
                  | some g5 => some g5.next_turn
        else
          -- Not challenged: the next player draws four and is skipped
          match Game.draw_print_loop sh g2.turn 4 g2 with
          | none => none
          | some g4 =>
            match g4.sort_hand g4.turn with
            | none => none
            | some g5 => some g5.next_turn

/-- `Game.__play_card__`: move the current player's card at Python
index `index` to the discard pile, resolve its effect by type, then
check whether the player that just played has emptied their hand
(returning `false` to signal the round is over, `true` otherwise). -/
def Game.play_card (sh : List Card → List Card) (chosenColor : CardColor)
    (challenge : Bool) (g : Game) (index : Int) : Option (Bool × Game) :=
  match pyIdx g.players.length g.turn with
  | none => none
  | some ti =>
    match g.players[ti]? with
    | none => none
    | some pl =>
      match pyGet pl.cards index with
      | none => none
      | some card =>
        match g.discard_player_card ti index with
        | none => none
        | some g1 =>
          let turn_before := g1.turn
          match (if card.get_type = CardType.SKIP then some g1.play_skip
                 else if card.get_type = CardType.DRAW_TWO then g1.play_draw_two sh
                 else if card.get_type = CardType.REVERSE then some g1.play_reverse
                 else if card.get_type = CardType.WILD then
                   some (g1.play_wild chosenColor)
                 else if card.get_type = CardType.WILD_DRAW_FOUR then
                   g1.play_wd4 sh chosenColor challenge
                 else some g1.next_turn) with
          | none => none
          | some g2 =>
            match pyIdx g2.players.length turn_before with
            | none => none
            | some tb =>
              match g2.players[tb]? with
              | none => none
              | some plb =>
                if plb.cards.isEmpty then
                  some (false, { g2 with winner_index := turn_before })
                else
                  some (true, g2)

/-- The opening-flip retry loop of `Game.__init__`: with the discard
top just flipped, while that top equals the BLACK WILD_DRAW_FOUR card,
return it to the deck, reshuffle, and flip again.  `fuel` bounds the
number of retries (the source relies on randomness for termination);
running out of fuel, or flipping from an empty deck, is `none`. -/
def opening_flip_loop (sh : List Card → List Card) :
    Nat → List Card → List Card → Option (List Card × List Card)
  | 0, deck, discard =>
    match discard.getLast? with
    | none => none
    | some top =>
      if top.equals (Card.mk CardColor.BLACK CardType.WILD_DRAW_FOUR) then none
      else some (deck, discard)
  | fuel + 1, deck, discard =>
    match discard.getLast? with
    | none => none
    | some top =>
      if top.equals (Card.mk CardColor.BLACK CardType.WILD_DRAW_FOUR) then
        let deck' := sh (deck ++ [top])
        let discard' := discard.dropLast
        match deck'.getLast? with
        | none => none
        | some c => opening_flip_loop sh fuel deck'.dropLast (discard' ++ [c])
      else some (deck, discard)

/-- The opening flip of `Game.__init__`: discard the topdeck, then run
the retry loop that rejects a flipped WILD_DRAW_FOUR. -/
def opening_flip (sh : List Card → List Card) (fuel : Nat)
    (deck discard : List Card) : Option (List Card × List Card) :=
  match deck.getLast? with
  | none => none
  | some c => opening_flip_loop sh fuel deck.dropLast (discard ++ [c])

/-- The per-card point value of the scoring chain in `Game.game_end`:
the numbered types ONE through NINE add their face value,
SKIP/DRAW_TWO/REVERSE add 20, WILD/WILD_DRAW_FOUR add 50, and ZERO
matches no branch so adds nothing. -/
def card_points (c : Card) : Int :=
  match c.get_type with
  | CardType.ONE => 1
  | CardType.TWO => 2
  | CardType.THREE => 3
  | CardType.FOUR => 4
  | CardType.FIVE => 5
  | CardType.SIX => 6
  | CardType.SEVEN => 7
  | CardType.EIGHT => 8
  | CardType.NINE => 9
  | CardType.SKIP => 20
  | CardType.DRAW_TWO => 20
  | CardType.REVERSE => 20
  | CardType.WILD => 50
  | CardType.WILD_DRAW_FOUR => 50
  | _ => 0

/-- Card point values as the specification words them: a numbered card
counts its face value (0–9), Skip/Reverse/DrawTwo count 20, and
Wild/WildDrawFour count 50. -/
def card_points_spec (c : Card) : Int :=
  if c.type.value ≤ 9 then (c.type.value : Int)
  else if c.type = CardType.SKIP ∨ c.type = CardType.REVERSE ∨ c.type = CardType.DRAW_TWO
    then 20
  else 50

/-- The scoring loop of `Game.game_end`, walking the player list from
position `i`: every player other than the winner contributes the sum of
their hand's card points.  Python's `player == winner` compares object
identity, and `winner` is `self.players[self.winner_index]`, so with
distinct player objects the test is exactly the position test
`i = wi`. -/
def tally (wi : Nat) : Nat → List Player → Int
  | _, [] => 0
  | i, p :: ps =>
      (if i = wi then 0 else (p.cards.map card_points).sum) + tally wi (i + 1) ps

/-- `Game.game_end`: add to the winner's cumulative score the summed
card points of every other player's hand, and return the winner's
index. -/
def Game.game_end (g : Game) : Option (Game × Int) :=
  match pyIdx g.players.length g.winner_index with
  | none => none
  | some wi =>
    match g.players[wi]? with
    | none => none
    | some winner =>
      some ({ g with players := g.players.set wi (winner.add_score (tally wi 0 g.players)) },
        g.winner_index)

/-- Number of cards held by the player at list position `j` (0 when the
position is out of range). -/
def handCount (g : Game) (j : Nat) : Nat :=
  match g.players[j]? with
  | some p => p.cards.length
  | none => 0

/-- Summed card points of the hand at list position `j` (0 when the
position is out of range). -/
def seatPoints (ps : List Player) (j : Nat) : Int :=
  match ps[j]? with
  | some p => (p.cards.map card_points).sum
  | none => 0

theorem pyIdx_of_nonneg {n : Nat} {i : Int} (h0 : 0 ≤ i) (h1 : i < (n : Int)) :
    pyIdx n i = some i.toNat := by
  simp [pyIdx, h0, h1]

theorem pyGet_neg_one {α : Type} {l : List α} (h : l ≠ []) :
    ∃ a, pyGet l (-1) = some a := by
  have hl : 1 ≤ l.length := List.length_pos.mpr h
  have hidx : pyIdx l.length (-1) = some (l.length - 1) := by
    have : ¬ (0 : Int) ≤ -1 := by omega
    simp only [pyIdx, this, if_false]
    have h2 : (0 : Int) ≤ -1 + (l.length : Int) := by omega
    rw [if_pos h2]
    congr 1
    omega
  refine ⟨l.get ⟨l.length - 1, by omega⟩, ?_⟩
  simp [pyGet, hidx, List.getElem?_eq_getElem (by omega : l.length - 1 < l.length)]

@[simp] theorem next_turn_players (g : Game) : g.next_turn.players = g.players := by
  unfold Game.next_turn; split <;> rfl

@[simp] theorem next_turn_deck (g : Game) : g.next_turn.deck = g.deck := by
  unfold Game.next_turn; split <;> rfl

@[simp] theorem next_turn_discard (g : Game) : g.next_turn.discard = g.discard := by
  unfold Game.next_turn; split <;> rfl

@[simp] theorem next_turn_wild_color (g : Game) : g.next_turn.wild_color = g.wild_color := by
  unfold Game.next_turn; split <;> rfl

@[simp] theorem next_turn_clockwise (g : Game) : g.next_turn.clockwise = g.clockwise := by
  unfold Game.next_turn; split <;> rfl

@[simp] theorem next_turn_winner_index (g : Game) : g.next_turn.winner_index = g.winner_index := by
  unfold Game.next_turn; split <;> rfl

theorem next_turn_turn (g : Game) :
    g.next_turn.turn =
      if g.clockwise then
        (if (g.players.length : Int) ≤ g.turn + 1 then g.turn + 1 - g.players.length
         else g.turn + 1)
      else
        (if g.turn - 1 < 0 then g.turn - 1 + g.players.length else g.turn - 1) := by
  unfold Game.next_turn; split <;> rfl

theorem next_turn_range {g : Game} (h0 : 0 ≤ g.turn)
    (h1 : g.turn < (g.players.length : Int)) :
    0 ≤ g.next_turn.turn ∧ g.next_turn.turn < (g.players.length : Int) := by
  rw [next_turn_turn]
  split_ifs <;> omega

theorem next_turn_turn_congr {a b : Game} (ht : a.turn = b.turn)
    (hc : a.clockwise = b.clockwise) (hp : a.players.length = b.players.length) :
    a.next_turn.turn = b.next_turn.turn := by
  rw [next_turn_turn, next_turn_turn, ht, hc, hp]

/-- C1: for every game state with a non-empty discard and every
candidate card `c`, the legality check `can_be_played` returns a truthy
result (`some true`; the source's fall-through `None` is falsy) if and
only if the active wild color is set and matches `c`, or `c` matches
the discard top's color or type, or `c` is wild-colored (BLACK); the
check performs no assignment, and is embedded as a pure function of the
state. -/
theorem can_be_played_iff_conditions (g : Game) (c top : Card)
    (h : g.discard.getLast? = some top) :
    g.can_be_played c =
      some (decide ((g.wild_color ≠ CardColor.BLACK ∧ c.color = g.wild_color) ∨
        c.color = top.color ∨ c.type = top.type ∨ c.color = CardColor.BLACK)) := by
  simp only [Game.can_be_played, h, Card.get_color, Card.equals_color, Card.equals_type,
    decide_eq_true_eq]
  split_ifs with h1 h2 h3 h4 <;> simp_all

theorem can_be_played_iff_conditions_witness :
    Game.can_be_played
        ⟨[], [], [⟨CardColor.BLUE, CardType.TWO⟩], CardColor.BLACK, -1, true, 0⟩
        ⟨CardColor.RED, CardType.TWO⟩ = some true := by
  have h := can_be_played_iff_conditions
    ⟨[], [], [⟨CardColor.BLUE, CardType.TWO⟩], CardColor.BLACK, -1, true, 0⟩
    ⟨CardColor.RED, CardType.TWO⟩ ⟨CardColor.BLUE, CardType.TWO⟩ rfl
  rw [h]
  decide

/-- C10: with at least one seat, `next_turn` sends an in-range turn
index to an in-range turn index — incrementing modulo the seat count
clockwise and decrementing modulo the seat count counterclockwise — so
`players[turn]` stays in bounds. -/
theorem next_turn_in_bounds (g : Game) (h0 : 0 ≤ g.turn)
    (h1 : g.turn < (g.players.length : Int)) (hn : 1 ≤ g.players.length) :
    (0 ≤ g.next_turn.turn ∧ g.next_turn.turn < (g.players.length : Int)) ∧
    g.next_turn.turn =
      (if g.clockwise then (g.turn + 1) % (g.players.length : Int)
       else (g.turn - 1) % (g.players.length : Int)) := by
  refine ⟨next_turn_range h0 h1, ?_⟩
  rw [next_turn_turn]
  split_ifs with hc hge hlt
  · have he : g.turn + 1 = (g.players.length : Int) := by omega
    have h2 : (g.turn + 1) % (g.players.length : Int) = 0 := by
      rw [he]; exact Int.emod_self
    rw [h2]; omega
  · have h2 : (g.turn + 1) % (g.players.length : Int) = g.turn + 1 :=
      Int.emod_eq_of_lt (by omega) (by omega)
    rw [h2]
  · have h3 := Int.add_mul_emod_self_left (g.turn - 1) (g.players.length : Int) 1
    rw [mul_one] at h3
    have h2 : (g.turn - 1) % (g.players.length : Int) =
        g.turn - 1 + (g.players.length : Int) := by
      rw [← h3]; exact Int.emod_eq_of_lt (by omega) (by omega)
    rw [h2]
  · have h2 : (g.turn - 1) % (g.players.length : Int) = g.turn - 1 :=
      Int.emod_eq_of_lt (by omega) (by omega)
    rw [h2]

theorem next_turn_in_bounds_witness :
    (0 ≤ (Game.next_turn ⟨[⟨[], 0⟩, ⟨[], 0⟩], [], [], CardColor.BLACK, -1, true, 1⟩).turn ∧
      (Game.next_turn ⟨[⟨[], 0⟩, ⟨[], 0⟩], [], [], CardColor.BLACK, -1, true, 1⟩).turn < 2) ∧
    (Game.next_turn ⟨[⟨[], 0⟩, ⟨[], 0⟩], [], [], CardColor.BLACK, -1, true, 1⟩).turn =
      (1 + 1) % 2 := by
  have h := next_turn_in_bounds ⟨[⟨[], 0⟩, ⟨[], 0⟩], [], [], CardColor.BLACK, -1, true, 1⟩
    (by decide) (by decide) (by decide)
  simpa using h

/-- C7: with exactly two players, playing a Reverse card yields the
same turn index and the same direction as playing a Skip card from the
same state (the source special-cases two-player Reverse as skip-next,
leaving `clockwise` untouched). -/
theorem two_player_reverse_same_as_skip (g : Game) (h : g.players.length = 2) :
    g.play_reverse.turn = g.play_skip.turn ∧
    g.play_reverse.clockwise = g.play_skip.clockwise := by
  simp [Game.play_reverse, Game.play_skip, h]

theorem two_player_reverse_same_as_skip_witness :
    (Game.play_reverse ⟨[⟨[], 0⟩, ⟨[], 0⟩], [], [], CardColor.BLACK, -1, true, 0⟩).turn =
      (Game.play_skip ⟨[⟨[], 0⟩, ⟨[], 0⟩], [], [], CardColor.BLACK, -1, true, 0⟩).turn ∧
    (Game.play_reverse ⟨[⟨[], 0⟩, ⟨[], 0⟩], [], [], CardColor.BLACK, -1, true, 0⟩).clockwise =
      (Game.play_skip ⟨[⟨[], 0⟩, ⟨[], 0⟩], [], [], CardColor.BLACK, -1, true, 0⟩).clockwise :=
  two_player_reverse_same_as_skip
    ⟨[⟨[], 0⟩, ⟨[], 0⟩], [], [], CardColor.BLACK, -1, true, 0⟩ (by decide)

/-- C2 (code bug): with the card beneath the played WildDrawFour being
BLACK (wild), the remaining hand holding a RED ONE, and the active wild
color RED, the source's legality audit still marks the play legal,
because `card_it.get_color == self.wild_color` compares the bound
method object (the call parentheses are missing) with a `CardColor`,
which in Python is always `False`; the audit the specification words
(`wd4_audit_spec`) marks this play illegal. -/
theorem wd4_audit_misses_wild_beneath_match :
    wd4_audit [⟨CardColor.RED, CardType.ONE⟩] ⟨CardColor.BLACK, CardType.WILD⟩
        CardColor.RED = true ∧
    wd4_audit_spec [⟨CardColor.RED, CardType.ONE⟩] ⟨CardColor.BLACK, CardType.WILD⟩
        CardColor.RED = false := by
  constructor <;> rfl

/-- C6: when a draw is requested with an empty deck, the engine first
moves every discard card except the current top back into the deck
(shuffled — the new deck is a permutation of the old discard minus its
top), leaving the discard holding exactly that top card; if the deck is
then still empty (deck and discard together held a single card), no
card is given, the operation returns the falsy `false` instead of
raising, and no hand changes; otherwise one reshuffled card reaches the
drawing player's hand. -/
theorem reshuffle_on_empty_deck (sh : List Card → List Card) (hsh : IsShuffle sh)
    (g : Game) (pi : Int) (i : Nat) (pl : Player) (top : Card)
    (hdeck : g.deck = []) (htop : g.discard.getLast? = some top)
    (hi : pyIdx g.players.length pi = some i) (hpl : g.players[i]? = some pl) :
    ∃ b g', g.give_topdeck_to_player sh pi = some (b, g') ∧
      g'.discard = [top] ∧
      (sh g.discard.dropLast).Perm g.discard.dropLast ∧
      (g.discard.dropLast = [] → b = false ∧ g'.deck = [] ∧ g'.players = g.players) ∧
      (g.discard.dropLast ≠ [] → b = true ∧ ∃ c,
        g'.deck = (sh g.discard.dropLast).dropLast ∧
        g'.players = g.players.set i (pl.receive_card c)) := by
  have hperm := hsh g.discard.dropLast
  have hde : g.deck.isEmpty = true := by simp [hdeck]
  by_cases hcase : g.discard.dropLast = []
  · have hshnil : sh g.discard.dropLast = [] := by
      have h2 := hsh g.discard.dropLast
      rw [hcase] at h2 ⊢
      exact h2.eq_nil
    refine ⟨false,
      ⟨g.players, sh g.discard.dropLast, [top], g.wild_color, g.winner_index,
        g.clockwise, g.turn⟩, ?_, rfl, hperm,
      fun _ => ⟨rfl, hshnil, rfl⟩, fun hne => absurd hcase hne⟩
    simp only [Game.give_topdeck_to_player, Option.bind_eq_bind, hi, Option.some_bind, hpl,
      hde, if_true, htop, hshnil]
    rfl
  · have hshne : sh g.discard.dropLast ≠ [] := by
      intro hnil
      rw [hnil] at hperm
      exact hcase hperm.symm.eq_nil
    have hie : (sh g.discard.dropLast).isEmpty = false := by
      simp [List.isEmpty_iff, hshne]
    obtain ⟨c, hc⟩ : ∃ c, (sh g.discard.dropLast).getLast? = some c := by
      cases hlast : (sh g.discard.dropLast).getLast? with
      | none => exact absurd (List.getLast?_eq_none_iff.mp hlast) hshne
      | some c => exact ⟨c, rfl⟩
    refine ⟨true,
      ⟨g.players.set i (pl.receive_card c), (sh g.discard.dropLast).dropLast, [top],
        g.wild_color, g.winner_index, g.clockwise, g.turn⟩, ?_, rfl, hperm,
      fun hnil => absurd hnil hcase, fun _ => ⟨rfl, c, rfl, rfl⟩⟩
    simp only [Game.give_topdeck_to_player, Option.bind_eq_bind, hi, Option.some_bind, hpl,
      hde, if_true, htop, hie, hc]
    rfl

theorem reshuffle_on_empty_deck_witness :
    ∃ b g', Game.give_topdeck_to_player id
        ⟨[⟨[], 0⟩], [], [⟨CardColor.BLUE, CardType.TWO⟩], CardColor.BLACK, -1, true, 0⟩ 0 =
        some (b, g') ∧
      g'.discard = [⟨CardColor.BLUE, CardType.TWO⟩] ∧
      (List.Perm (id ([] : List Card)) []) ∧
      (([] : List Card) = [] → b = false ∧ g'.deck = [] ∧ g'.players = [⟨[], 0⟩]) ∧
      (([] : List Card) ≠ [] → b = true ∧ ∃ c, g'.deck = (id ([] : List Card)).dropLast ∧
        g'.players = [⟨[], 0⟩].set 0 (Player.receive_card ⟨[], 0⟩ c)) :=
  reshuffle_on_empty_deck id (fun l => List.Perm.refl l)
    ⟨[⟨[], 0⟩], [], [⟨CardColor.BLUE, CardType.TWO⟩], CardColor.BLACK, -1, true, 0⟩ 0 0
    ⟨[], 0⟩ ⟨CardColor.BLUE, CardType.TWO⟩ rfl rfl rfl rfl

theorem seatPoints_cons_succ (p : Player) (ps : List Player) (j : Nat) :
    seatPoints (p :: ps) (j + 1) = seatPoints ps j := by
  simp [seatPoints, List.getElem?_cons_succ]

theorem tally_eq_sum (wi : Nat) (ps : List Player) : ∀ s : Nat,
    tally wi s ps = ∑ j ∈ Finset.range ps.length,
      (if s + j = wi then 0 else seatPoints ps j) := by
  induction ps with
  | nil => intro s; simp [tally]
  | cons p ps ih =>
    intro s
    have h0 : tally wi s (p :: ps) =
        (if s = wi then 0 else (p.cards.map card_points).sum) + tally wi (s + 1) ps := rfl
    rw [h0, ih (s + 1), List.length_cons, Finset.sum_range_succ']
    rw [add_comm]
    congr 1
    · apply Finset.sum_congr rfl
      intro j _
      rw [seatPoints_cons_succ p ps j]
      by_cases hj : s + (j + 1) = wi
      · rw [if_pos hj, if_pos (by omega : s + 1 + j = wi)]
      · rw [if_neg hj, if_neg (by omega : ¬ s + 1 + j = wi)]
    · have h3 : seatPoints (p :: ps) 0 = (p.cards.map card_points).sum := by
        simp [seatPoints]
      rw [h3]
      by_cases hs : s = wi
      · rw [if_pos hs, if_pos (by omega : s + 0 = wi)]
      · rw [if_neg hs, if_neg (by omega : ¬ s + 0 = wi)]

/-- C8: with a valid winner index, `game_end` adds to the winner's
cumulative score exactly the sum, over every other seat, of that hand's
card points — where the per-card value agrees everywhere with the
specification's table (face value for 0–9, 20 for Skip/Reverse/DrawTwo,
50 for Wild/WildDrawFour) — and it modifies no other player's entry and
no hand, the winner's included. -/
theorem game_end_adds_other_hands (g : Game) (wi : Nat) (winner : Player)
    (hwi : pyIdx g.players.length g.winner_index = some wi)
    (hwin : g.players[wi]? = some winner) :
    g.game_end = some
      ({ g with players :=
          g.players.set wi (Player.mk winner.cards (winner.score + tally wi 0 g.players)) },
        g.winner_index) ∧
    tally wi 0 g.players =
      (∑ j ∈ Finset.range g.players.length,
        (if j = wi then 0 else seatPoints g.players j)) ∧
    (∀ c : Card, card_points c = card_points_spec c) ∧
    (∀ j, j ≠ wi →
      (g.players.set wi
        (Player.mk winner.cards (winner.score + tally wi 0 g.players)))[j]? = g.players[j]?) ∧
    (∀ (j : Nat) (p p' : Player), g.players[j]? = some p →
      (g.players.set wi
        (Player.mk winner.cards (winner.score + tally wi 0 g.players)))[j]? = some p' →
      p'.cards = p.cards) := by
  have hlt : wi < g.players.length := by
    obtain ⟨hl, -⟩ := List.getElem?_eq_some_iff.mp hwin
    exact hl
  refine ⟨?_, ?_, ?_, ?_, ?_⟩
  · simp only [Game.game_end, Option.bind_eq_bind, hwi, Option.some_bind, hwin]
    rfl
  · rw [tally_eq_sum wi g.players 0]
    apply Finset.sum_congr rfl
    intro j _
    by_cases hj : j = wi
    · rw [if_pos (by omega : 0 + j = wi), if_pos hj]
    · rw [if_neg (by omega : ¬ 0 + j = wi), if_neg hj]
  · intro c
    cases c with
    | mk color ty => cases ty <;> rfl
  · intro j hj
    exact List.getElem?_set_ne (Ne.symm hj)
  · intro j p p' hp hp'
    by_cases hj : j = wi
    · subst hj
      rw [hwin] at hp
      rw [List.getElem?_set_self hlt] at hp'
      cases hp
      cases hp'
      rfl
    · rw [List.getElem?_set_ne (Ne.symm hj)] at hp'
      rw [hp] at hp'
      cases hp'
      rfl

theorem game_end_adds_other_hands_witness :
    Game.game_end ⟨[⟨[], 5⟩, ⟨[⟨CardColor.RED, CardType.ONE⟩], 0⟩], [], [], CardColor.BLACK,
        0, true, 0⟩ =
      some (⟨[⟨[], 6⟩, ⟨[⟨CardColor.RED, CardType.ONE⟩], 0⟩], [], [], CardColor.BLACK,
        0, true, 0⟩, 0) := by
  have h := (game_end_adds_other_hands ⟨[⟨[], 5⟩, ⟨[⟨CardColor.RED, CardType.ONE⟩], 0⟩],
      [], [], CardColor.BLACK, 0, true, 0⟩ 0 ⟨[], 5⟩ rfl rfl).1
  rw [h]
  rfl

theorem opening_flip_loop_no_wd4 (sh : List Card → List Card) (hsh : IsShuffle sh) :
    ∀ (fuel : Nat) (deck discard : List Card),
      (∀ c : Card, c ∈ deck ++ discard → c.type = CardType.WILD_DRAW_FOUR →
        c.color = CardColor.BLACK) →
      ∀ deck' discard', opening_flip_loop sh fuel deck discard = some (deck', discard') →
      ∃ t, discard'.getLast? = some t ∧ t.type ≠ CardType.WILD_DRAW_FOUR := by
  intro fuel
  induction fuel with
  | zero =>
    intro deck discard hblack deck' discard' h
    cases htop : discard.getLast? with
    | none =>
      simp only [opening_flip_loop, htop] at h
      exact Option.noConfusion h
    | some top =>
      simp only [opening_flip_loop, htop] at h
      have htmem : top ∈ discard := by
        obtain ⟨ys, rfl⟩ := List.getLast?_eq_some_iff.mp htop
        simp
      by_cases hwd : top.equals ⟨CardColor.BLACK, CardType.WILD_DRAW_FOUR⟩ = true
      · rw [if_pos hwd] at h; cases h
      · rw [if_neg hwd] at h
        cases h
        refine ⟨top, htop, fun hty => ?_⟩
        have hcol : top.color = CardColor.BLACK :=
          hblack top (List.mem_append.mpr (Or.inr htmem)) hty
        apply hwd
        simp [Card.equals, hcol, hty]
  | succ fuel ih =>
    intro deck discard hblack deck' discard' h
    cases htop : discard.getLast? with
    | none =>
      simp only [opening_flip_loop, htop] at h
      exact Option.noConfusion h
    | some top =>
      simp only [opening_flip_loop, htop] at h
      have htmem : top ∈ discard := by
        obtain ⟨ys, rfl⟩ := List.getLast?_eq_some_iff.mp htop
        simp
      by_cases hwd : top.equals ⟨CardColor.BLACK, CardType.WILD_DRAW_FOUR⟩ = true
      · rw [if_pos hwd] at h
        cases hlast : (sh (deck ++ [top])).getLast? with
        | none => rw [hlast] at h; cases h
        | some c =>
          rw [hlast] at h
          have hcmem : c ∈ deck ++ [top] := by
            have hc : c ∈ sh (deck ++ [top]) := by
              obtain ⟨ys, hys⟩ := List.getLast?_eq_some_iff.mp hlast
              rw [hys]; simp
            exact (hsh (deck ++ [top])).mem_iff.mp hc
          refine ih (sh (deck ++ [top])).dropLast (discard.dropLast ++ [c]) ?_ deck' discard' h
          intro x hx hty
          rcases List.mem_append.mp hx with hx1 | hx2
          · have hx3 : x ∈ deck ++ [top] :=
              (hsh (deck ++ [top])).mem_iff.mp (List.dropLast_subset _ hx1)
            rcases List.mem_append.mp hx3 with hx4 | hx5
            · exact hblack x (List.mem_append.mpr (Or.inl hx4)) hty
            · have hx6 : x = top := by simpa using hx5
              subst hx6
              exact hblack x (List.mem_append.mpr (Or.inr htmem)) hty
          · rcases List.mem_append.mp hx2 with hx4 | hx5
            · exact hblack x
                (List.mem_append.mpr (Or.inr (List.dropLast_subset _ hx4))) hty
            · have hx6 : x = c := by simpa using hx5
              subst hx6
              rcases List.mem_append.mp hcmem with hx7 | hx8
              · exact hblack x (List.mem_append.mpr (Or.inl hx7)) hty
              · have hx9 : x = top := by simpa using hx8
                subst hx9
                exact hblack x (List.mem_append.mpr (Or.inr htmem)) hty
      · rw [if_neg hwd] at h
        cases h
        refine ⟨top, htop, fun hty => ?_⟩
        have hcol : top.color = CardColor.BLACK :=
          hblack top (List.mem_append.mpr (Or.inr htmem)) hty
        apply hwd
        simp [Card.equals, hcol, hty]

/-- C9: the opening flip moves the deck's top card to the discard and,
whenever the flipped card is the BLACK WildDrawFour, returns it to the
deck, reshuffles and flips again; when it completes, provided every
WildDrawFour-typed card in circulation is BLACK — which holds of the
freshly built deck, as the first conjunct states — the discard top is
never a WildDrawFour, so the WildDrawFour branch of opening-card
resolution is unreachable. -/
theorem opening_card_never_wd4 (sh : List Card → List Card) (hsh : IsShuffle sh)
    (fuel : Nat) (deck discard : List Card)
    (hblack : ∀ c : Card, c ∈ deck ++ discard → c.type = CardType.WILD_DRAW_FOUR →
      c.color = CardColor.BLACK)
    (deck' discard' : List Card)
    (h : opening_flip sh fuel deck discard = some (deck', discard')) :
    (∀ c : Card, c ∈ init_deck sh → c.type = CardType.WILD_DRAW_FOUR →
      c.color = CardColor.BLACK) ∧
    ∃ t, discard'.getLast? = some t ∧ t.type ≠ CardType.WILD_DRAW_FOUR := by
  constructor
  · intro c hc hty
    have hc2 := (hsh _).mem_iff.mp hc
    clear hc
    revert hty
    revert hc2
    revert c
    decide
  · unfold opening_flip at h
    cases hc0 : deck.getLast? with
    | none => rw [hc0] at h; cases h
    | some c0 =>
      rw [hc0] at h
      have hc0mem : c0 ∈ deck := by
        obtain ⟨ys, rfl⟩ := List.getLast?_eq_some_iff.mp hc0
        simp
      refine opening_flip_loop_no_wd4 sh hsh fuel deck.dropLast (discard ++ [c0]) ?_
        deck' discard' h
      intro x hx hty
      rcases List.mem_append.mp hx with hx1 | hx2
      · exact hblack x (List.mem_append.mpr (Or.inl (List.dropLast_subset _ hx1))) hty
      · rcases List.mem_append.mp hx2 with hx3 | hx4
        · exact hblack x (List.mem_append.mpr (Or.inr hx3)) hty
        · have hx5 : x = c0 := by simpa using hx4
          subst hx5
          exact hblack x (List.mem_append.mpr (Or.inl hc0mem)) hty

theorem opening_card_never_wd4_witness :
    (∀ c : Card, c ∈ init_deck List.reverse → c.type = CardType.WILD_DRAW_FOUR →
      c.color = CardColor.BLACK) ∧
    ∃ t, [Card.mk CardColor.GREEN CardType.TWO].getLast? = some t ∧
      t.type ≠ CardType.WILD_DRAW_FOUR :=
  opening_card_never_wd4 List.reverse (fun l => List.reverse_perm l) 3
    [Card.mk CardColor.GREEN CardType.TWO, Card.mk CardColor.BLACK CardType.WILD_DRAW_FOUR]
    [] (by decide) [Card.mk CardColor.BLACK CardType.WILD_DRAW_FOUR]
    [Card.mk CardColor.GREEN CardType.TWO] (by rfl)

theorem give_topdeck_fields {sh : List Card → List Card} {g : Game} {pi : Int}
    {b : Bool} {g' : Game} (h : g.give_topdeck_to_player sh pi = some (b, g')) :
    g'.wild_color = g.wild_color ∧ g'.winner_index = g.winner_index ∧
    g'.clockwise = g.clockwise ∧ g'.turn = g.turn ∧
    g'.players.length = g.players.length := by
  unfold Game.give_topdeck_to_player at h
  split at h
  · exact Option.noConfusion h
  · split at h
    · exact Option.noConfusion h
    · split at h
      · exact Option.noConfusion h
      · split at h
        · injection h with h2
          injection h2 with hb hg
          subst hg
          exact ⟨rfl, rfl, rfl, rfl, rfl⟩
        · split at h
          · exact Option.noConfusion h
          · injection h with h2
            injection h2 with hb hg
            subst hg
            exact ⟨rfl, rfl, rfl, rfl, by simp [List.length_set]⟩

theorem sort_hand_fields {g : Game} {pi : Int} {g' : Game}
    (h : g.sort_hand pi = some g') :
    g'.wild_color = g.wild_color ∧ g'.winner_index = g.winner_index ∧
    g'.clockwise = g.clockwise ∧ g'.turn = g.turn ∧
    g'.players.length = g.players.length ∧ g'.deck = g.deck ∧ g'.discard = g.discard := by
  unfold Game.sort_hand at h
  split at h
  · exact Option.noConfusion h
  · split at h
    · exact Option.noConfusion h
    · injection h with h2
      subst h2
      exact ⟨rfl, rfl, rfl, rfl, by simp [List.length_set], rfl, rfl⟩

theorem draw_print_loop_fields {sh : List Card → List Card} {pi : Int} :
    ∀ (k : Nat) {g g' : Game}, Game.draw_print_loop sh pi k g = some g' →
      g'.wild_color = g.wild_color ∧ g'.winner_index = g.winner_index ∧
      g'.clockwise = g.clockwise ∧ g'.turn = g.turn ∧
      g'.players.length = g.players.length := by
  intro k
  induction k with
  | zero =>
    intro g g' h
    simp only [Game.draw_print_loop] at h
    injection h with h2
    subst h2
    exact ⟨rfl, rfl, rfl, rfl, rfl⟩
  | succ k ih =>
    intro g g' h
    simp only [Game.draw_print_loop] at h
    split at h
    · exact Option.noConfusion h
    case h_2 r hr =>
      split at h
      · exact Option.noConfusion h
      · split at h
        · exact Option.noConfusion h
        · split at h
          · exact Option.noConfusion h
          · have h1 := give_topdeck_fields hr
            have h2 := ih h
            exact ⟨h2.1.trans h1.1, h2.2.1.trans h1.2.1, h2.2.2.1.trans h1.2.2.1,
              h2.2.2.2.1.trans h1.2.2.2.1, h2.2.2.2.2.trans h1.2.2.2.2⟩

theorem play_draw_two_wild {sh : List Card → List Card} {g g' : Game}
    (h : g.play_draw_two sh = some g') :
    g'.wild_color = g.wild_color := by
  unfold Game.play_draw_two at h
  split at h
  · exact Option.noConfusion h
  case h_2 r1 hr1 =>
    split at h
    · exact Option.noConfusion h
    case h_2 r2 hr2 =>
      split at h
      · exact Option.noConfusion h
      · split at h
        · exact Option.noConfusion h
        · split at h
          case h_1 x1 x2 hx1 hx2 =>
            split at h
            · exact Option.noConfusion h
            case h_2 g4 hg4 =>
              injection h with h2
              subst h2
              have f1 := give_topdeck_fields hr1
              have f2 := give_topdeck_fields hr2
              have f4 := sort_hand_fields hg4
              rw [next_turn_wild_color, f4.1, f2.1, f1.1, next_turn_wild_color]
          · exact Option.noConfusion h

theorem discard_player_card_fields {g : Game} {i : Nat} {ci : Int} {g' : Game}
    (h : g.discard_player_card i ci = some g') :
    g'.wild_color = g.wild_color ∧ g'.winner_index = g.winner_index ∧
    g'.clockwise = g.clockwise ∧ g'.turn = g.turn ∧
    g'.players.length = g.players.length ∧ g'.deck = g.deck := by
  unfold Game.discard_player_card at h
  split at h
  · exact Option.noConfusion h
  · split at h
    · exact Option.noConfusion h
    · split at h
      · exact Option.noConfusion h
      · injection h with h2
        subst h2
        exact ⟨rfl, rfl, rfl, rfl, by simp [List.length_set], rfl⟩

/-- C5: when the card played through `play_card` is a Skip, DrawTwo or
Reverse, the resulting state's `wild_color` equals the original one:
the post-effect clearing line `self.wild_color == CardColor["BLACK"]`
is an equality comparison, not an assignment, so an active wild color
set by an earlier wild play persists across these plays. -/
theorem play_action_keeps_wild_color (sh : List Card → List Card)
    (chosenColor : CardColor) (challenge : Bool) (g : Game) (index : Int)
    (ti : Nat) (pl : Player) (card : Card) (b : Bool) (g' : Game)
    (hti : pyIdx g.players.length g.turn = some ti)
    (hpl : g.players[ti]? = some pl)
    (hcard : pyGet pl.cards index = some card)
    (hty : card.get_type = CardType.SKIP ∨ card.get_type = CardType.DRAW_TWO ∨
      card.get_type = CardType.REVERSE)
    (h : g.play_card sh chosenColor challenge index = some (b, g')) :
    g'.wild_color = g.wild_color := by
  unfold Game.play_card at h
  simp only [hti, hpl, hcard] at h
  split at h
  · exact Option.noConfusion h
  case h_2 g1 hg1 =>
    split at h
    · exact Option.noConfusion h
    case h_2 g2 hg2 =>
      have hwild1 : g1.wild_color = g.wild_color := (discard_player_card_fields hg1).1
      have hwild2 : g2.wild_color = g1.wild_color := by
        rcases hty with h1 | h1 | h1
        · rw [if_pos h1] at hg2
          injection hg2 with h3
          subst h3
          rw [Game.play_skip, next_turn_wild_color, next_turn_wild_color]
        · rw [if_neg (fun hx => CardType.noConfusion (h1 ▸ hx)), if_pos h1] at hg2
          exact play_draw_two_wild hg2
        · rw [if_neg (fun hx => CardType.noConfusion (h1 ▸ hx)),
            if_neg (fun hx => CardType.noConfusion (h1 ▸ hx)), if_pos h1] at hg2
          injection hg2 with h3
          subst h3
          unfold Game.play_reverse
          split
          · rw [next_turn_wild_color, next_turn_wild_color]
          · rw [next_turn_wild_color]
      split at h
      · exact Option.noConfusion h
      · split at h
        · exact Option.noConfusion h
        · split at h
          · injection h with h2
            injection h2 with hb hg
            subst hg
            rw [show ({ g2 with winner_index := g1.turn } : Game).wild_color = g2.wild_color
              from rfl, hwild2, hwild1]
          · injection h with h2
            injection h2 with hb hg
            subst hg
            rw [hwild2, hwild1]

theorem play_action_keeps_wild_color_witness :
    ∃ b g', Game.play_card id CardColor.GREEN false
        ⟨[⟨[⟨CardColor.RED, CardType.SKIP⟩, ⟨CardColor.RED, CardType.ONE⟩], 0⟩,
          ⟨[⟨CardColor.BLUE, CardType.TWO⟩], 0⟩], [], [⟨CardColor.RED, CardType.THREE⟩],
          CardColor.RED, -1, true, 0⟩ 0 = some (b, g') ∧
      g'.wild_color = CardColor.RED := by
  refine ⟨true, ⟨[⟨[⟨CardColor.RED, CardType.ONE⟩], 0⟩, ⟨[⟨CardColor.BLUE, CardType.TWO⟩], 0⟩],
    [], [⟨CardColor.RED, CardType.THREE⟩, ⟨CardColor.RED, CardType.SKIP⟩],
    CardColor.RED, -1, true, 0⟩, rfl, ?_⟩
  exact play_action_keeps_wild_color id CardColor.GREEN false
    ⟨[⟨[⟨CardColor.RED, CardType.SKIP⟩, ⟨CardColor.RED, CardType.ONE⟩], 0⟩,
      ⟨[⟨CardColor.BLUE, CardType.TWO⟩], 0⟩], [], [⟨CardColor.RED, CardType.THREE⟩],
      CardColor.RED, -1, true, 0⟩ 0 0
    ⟨[⟨CardColor.RED, CardType.SKIP⟩, ⟨CardColor.RED, CardType.ONE⟩], 0⟩
    ⟨CardColor.RED, CardType.SKIP⟩ true
    ⟨[⟨[⟨CardColor.RED, CardType.ONE⟩], 0⟩, ⟨[⟨CardColor.BLUE, CardType.TWO⟩], 0⟩],
    [], [⟨CardColor.RED, CardType.THREE⟩, ⟨CardColor.RED, CardType.SKIP⟩],
    CardColor.RED, -1, true, 0⟩ rfl rfl rfl (Or.inl rfl) rfl

theorem sum_map_set (f : Player → Nat) :
    ∀ (ps : List Player) (i : Nat) (p q : Player), ps[i]? = some q →
      ((ps.set i p).map f).sum + f q = (ps.map f).sum + f p := by
  intro ps
  induction ps with
  | nil => intro i p q hq; simp at hq
  | cons a ps ih =>
    intro i p q hq
    cases i with
    | zero =>
      simp only [List.getElem?_cons_zero, Option.some_inj] at hq
      subst hq
      simp only [List.set_cons_zero, List.map_cons, List.sum_cons]
      omega
    | succ i =>
      simp only [List.getElem?_cons_succ] at hq
      have h2 := ih i p q hq
      simp only [List.set_cons_succ, List.map_cons, List.sum_cons]
      omega

theorem receive_card_length (p : Player) (c : Card) :
    (p.receive_card c).cards.length = p.cards.length + 1 := by
  simp [Player.receive_card]

theorem sort_cards_length (p : Player) :
    p.sort_cards.cards.length = p.cards.length := by
  simp only [Player.sort_cards]
  exact (List.perm_insertionSort _ p.cards).length_eq

theorem next_turn_totalCards (g : Game) : totalCards g.next_turn = totalCards g := by
  unfold totalCards
  rw [next_turn_players, next_turn_deck, next_turn_discard]

theorem give_topdeck_totalCards {sh : List Card → List Card} (hsh : IsShuffle sh)
    {g : Game} {pi : Int} {b : Bool} {g' : Game}
    (h : g.give_topdeck_to_player sh pi = some (b, g')) :
    totalCards g' = totalCards g := by
  unfold Game.give_topdeck_to_player at h
  split at h
  · exact Option.noConfusion h
  case h_2 i hi =>
    split at h
    · exact Option.noConfusion h
    case h_2 pl hpl =>
      split at h
      · exact Option.noConfusion h
      case h_2 s hs =>
        have hslen : s.1.length + s.2.length = g.deck.length + g.discard.length := by
          split at hs
          · split at hs
            · exact Option.noConfusion hs
            case h_2 top htop =>
              injection hs with hs2
              subst hs2
              have h1 : (sh g.discard.dropLast).length = g.discard.dropLast.length :=
                (hsh g.discard.dropLast).length_eq
              have h2 : g.discard ≠ [] := by
                intro hx
                rw [hx] at htop
                exact Option.noConfusion htop
              have h3 : 1 ≤ g.discard.length := List.length_pos.mpr h2
              have h4 : g.deck.isEmpty = true := by assumption
              have h5 : g.deck.length = 0 := by
                rw [List.isEmpty_iff.mp h4]
                rfl
              simp only [h1, List.length_dropLast]
              simp only [List.length_cons, List.length_nil]
              omega
          · injection hs with hs2
            subst hs2
            rfl
        split at h
        · injection h with h2
          injection h2 with hb hg
          subst hg
          unfold totalCards
          simp only []
          omega
        case isFalse hne =>
          split at h
          · exact Option.noConfusion h
          case h_2 c hc =>
            injection h with h2
            injection h2 with hb hg
            subst hg
            have hs1 : s.1 ≠ [] := fun hx => hne (by simp [hx])
            have hs1len : 1 ≤ s.1.length := List.length_pos.mpr hs1
            have hsum := sum_map_set (fun p => p.cards.length) g.players i
              (pl.receive_card c) pl hpl
            unfold totalCards
            simp only [receive_card_length] at hsum
            simp only [List.length_dropLast]
            omega

theorem discard_player_card_totalCards {g : Game} {i : Nat} {ci : Int} {g' : Game}
    (h : g.discard_player_card i ci = some g') :
    totalCards g' = totalCards g := by
  unfold Game.discard_player_card at h
  split at h
  · exact Option.noConfusion h
  case h_2 pl hpl =>
    split at h
    · exact Option.noConfusion h
    case h_2 c hcget =>
      split at h
      · exact Option.noConfusion h
      case h_2 pl' hdel =>
        injection h with h2
        subst h2
        cases hj : pyIdx pl.cards.length ci with
        | none =>
          unfold pyGet at hcget
          rw [hj] at hcget
          exact Option.noConfusion hcget
        | some j =>
          have hjc : pl.cards[j]? = some c := by
            unfold pyGet at hcget
            rw [hj] at hcget
            simpa using hcget
          have hjlt : j < pl.cards.length := (List.getElem?_eq_some_iff.mp hjc).1
          have hplc : pl'.cards = pl.cards.eraseIdx j := by
            unfold Player.discard_card pyDel at hdel
            rw [hj] at hdel
            simp only [Option.map_some'] at hdel
            injection hdel with h3
            rw [← h3]
          have hlen : pl'.cards.length = pl.cards.length - 1 := by
            rw [hplc, List.length_eraseIdx]
            simp [hjlt]
          have hsum := sum_map_set (fun p => p.cards.length) g.players i pl' pl hpl
          beta_reduce at hsum
          rw [hlen] at hsum
          simp only [totalCards, List.length_append, List.length_cons, List.length_nil]
          omega

theorem sort_hand_totalCards {g : Game} {pi : Int} {g' : Game}
    (h : g.sort_hand pi = some g') : totalCards g' = totalCards g := by
  unfold Game.sort_hand at h
  split at h
  · exact Option.noConfusion h
  case h_2 i hi =>
    split at h
    · exact Option.noConfusion h
    case h_2 pl hpl =>
      injection h with h2
      subst h2
      have hsum := sum_map_set (fun p => p.cards.length) g.players i pl.sort_cards pl hpl
      beta_reduce at hsum
      rw [sort_cards_length] at hsum
      simp only [totalCards]
      omega

theorem draw_print_loop_totalCards {sh : List Card → List Card} (hsh : IsShuffle sh)
    {pi : Int} : ∀ (k : Nat) {g g' : Game},
      Game.draw_print_loop sh pi k g = some g' → totalCards g' = totalCards g := by
  intro k
  induction k with
  | zero =>
    intro g g' h
    simp only [Game.draw_print_loop] at h
    injection h with h2
    subst h2
    rfl
  | succ k ih =>
    intro g g' h
    simp only [Game.draw_print_loop] at h
    split at h
    · exact Option.noConfusion h
    case h_2 r hr =>
      split at h
      · exact Option.noConfusion h
      · split at h
        · exact Option.noConfusion h
        · split at h
          · exact Option.noConfusion h
          · exact (ih h).trans (give_topdeck_totalCards hsh hr)

theorem play_draw_two_totalCards {sh : List Card → List Card} (hsh : IsShuffle sh)
    {g g' : Game} (h : g.play_draw_two sh = some g') :
    totalCards g' = totalCards g := by
  unfold Game.play_draw_two at h
  split at h
  · exact Option.noConfusion h
  case h_2 r1 hr1 =>
    split at h
    · exact Option.noConfusion h
    case h_2 r2 hr2 =>
      split at h
      · exact Option.noConfusion h
      · split at h
        · exact Option.noConfusion h
        · split at h
          case h_1 x1 x2 hx1 hx2 =>
            split at h
            · exact Option.noConfusion h
            case h_2 g4 hg4 =>
              injection h with h2
              subst h2
              rw [next_turn_totalCards, sort_hand_totalCards hg4,
                give_topdeck_totalCards hsh hr2, give_topdeck_totalCards hsh hr1,
                next_turn_totalCards]
          · exact Option.noConfusion h

theorem shuffle_cards_length {sh : List Card → List Card} (hsh : IsShuffle sh)
    (p : Player) : (Player.shuffle_cards sh p).cards.length = p.cards.length := by
  simp only [Player.shuffle_cards]
  exact (hsh p.cards).length_eq

theorem totalCards_set_same_length {g : Game} {i : Nat} {pl pl' : Player}
    (hpl : g.players[i]? = some pl) (hlen : pl'.cards.length = pl.cards.length) :
    totalCards { g with players := g.players.set i pl' } = totalCards g := by
  have hsum := sum_map_set (fun p => p.cards.length) g.players i pl' pl hpl
  beta_reduce at hsum
  rw [hlen] at hsum
  simp only [totalCards]
  omega

theorem play_wd4_totalCards {sh : List Card → List Card} (hsh : IsShuffle sh)
    {chosenColor : CardColor} {challenge : Bool} {g g' : Game}
    (h : g.play_wd4 sh chosenColor challenge = some g') :
    totalCards g' = totalCards g := by
  unfold Game.play_wd4 at h
  dsimp only [] at h
  split at h
  · exact Option.noConfusion h
  case h_2 ti hti =>
    split at h
    · exact Option.noConfusion h
    case h_2 pl hpl =>
      split at h
      · exact Option.noConfusion h
      case h_2 beneath hben =>
        split at h
        · -- challenged
          split at h
          · exact Option.noConfusion h
          case h_2 ci hci =>
            split at h
            · exact Option.noConfusion h
            case h_2 cpl hcpl =>
              split at h
              · split at h
                · exact Option.noConfusion h
                case h_2 g4 hg4 =>
                  split at h
                  · exact Option.noConfusion h
                  case h_2 g5 hg5 =>
                    injection h with h2
                    subst h2
                    rw [next_turn_totalCards, sort_hand_totalCards hg5,
                      draw_print_loop_totalCards hsh _ hg4,
                      totalCards_set_same_length hcpl (shuffle_cards_length hsh cpl),
                      next_turn_totalCards]
                    rfl
              · split at h
                · exact Option.noConfusion h
                case h_2 g4 hg4 =>
                  split at h
                  · exact Option.noConfusion h
                  case h_2 g5 hg5 =>
                    injection h with h2
                    subst h2
                    rw [next_turn_totalCards, sort_hand_totalCards hg5,
                      draw_print_loop_totalCards hsh _ hg4,
                      totalCards_set_same_length hcpl (shuffle_cards_length hsh cpl),
                      next_turn_totalCards]
                    rfl
        · -- not challenged
          split at h
          · exact Option.noConfusion h
          case h_2 g4 hg4 =>
            split at h
            · exact Option.noConfusion h
            case h_2 g5 hg5 =>
              injection h with h2
              subst h2
              rw [next_turn_totalCards, sort_hand_totalCards hg5,
                draw_print_loop_totalCards hsh _ hg4, next_turn_totalCards]
              rfl

theorem discard_topdeck_totalCards {g : Game} {g' : Game}
    (h : g.discard_topdeck = some g') : totalCards g' = totalCards g := by
  unfold Game.discard_topdeck at h
  split at h
  · exact Option.noConfusion h
  case h_2 c hc =>
    injection h with h2
    subst h2
    have hne : g.deck ≠ [] := by
      intro hx
      rw [hx] at hc
      exact Option.noConfusion hc
    have hlen : 1 ≤ g.deck.length := List.length_pos.mpr hne
    simp only [totalCards, List.length_append, List.length_cons, List.length_nil,
      List.length_dropLast]
    omega

theorem play_card_totalCards {sh : List Card → List Card} (hsh : IsShuffle sh)
    {chosenColor : CardColor} {challenge : Bool} {g : Game} {index : Int}
    {b : Bool} {g' : Game}
    (h : g.play_card sh chosenColor challenge index = some (b, g')) :
    totalCards g' = totalCards g := by
  unfold Game.play_card at h
  dsimp only [] at h
  split at h
  · exact Option.noConfusion h
  case h_2 ti hti =>
    split at h
    · exact Option.noConfusion h
    case h_2 pl hpl =>
      split at h
      · exact Option.noConfusion h
      case h_2 card hcard =>
        split at h
        · exact Option.noConfusion h
        case h_2 g1 hg1 =>
          split at h
          · exact Option.noConfusion h
          case h_2 g2 hg2 =>
            have h1 : totalCards g1 = totalCards g := discard_player_card_totalCards hg1
            have h2 : totalCards g2 = totalCards g1 := by
              split at hg2
              · injection hg2 with h3
                subst h3
                unfold Game.play_skip
                rw [next_turn_totalCards, next_turn_totalCards]
              · split at hg2
                · exact play_draw_two_totalCards hsh hg2
                · split at hg2
                  · injection hg2 with h3
                    subst h3
                    unfold Game.play_reverse
                    split
                    · rw [next_turn_totalCards, next_turn_totalCards]
                    · rw [next_turn_totalCards]
                      rfl
                  · split at hg2
                    · injection hg2 with h3
                      subst h3
                      unfold Game.play_wild
                      rw [next_turn_totalCards]
                      rfl
                    · split at hg2
                      · exact play_wd4_totalCards hsh hg2
                      · injection hg2 with h3
                        subst h3
                        rw [next_turn_totalCards]
            split at h
            · exact Option.noConfusion h
            · split at h
              · exact Option.noConfusion h
              · split at h
                · injection h with h2'
                  injection h2' with hb hg
                  subst hg
                  exact h2.trans h1
                · injection h with h2'
                  injection h2' with hb hg
                  subst hg
                  exact h2.trans h1

theorem init_deck_length {sh : List Card → List Card} (hsh : IsShuffle sh) :
    (init_deck sh).length = 108 := by
  unfold init_deck
  rw [(hsh _).length_eq]
  rfl

theorem opening_flip_loop_length {sh : List Card → List Card} (hsh : IsShuffle sh) :
    ∀ (fuel : Nat) (deck discard deck' discard' : List Card),
      opening_flip_loop sh fuel deck discard = some (deck', discard') →
      deck'.length + discard'.length = deck.length + discard.length := by
  intro fuel
  induction fuel with
  | zero =>
    intro deck discard deck' discard' h
    simp only [opening_flip_loop] at h
    split at h
    · exact Option.noConfusion h
    case h_2 top htop =>
      split at h
      · exact Option.noConfusion h
      · injection h with h2
        injection h2 with hd hdc
        subst hd
        subst hdc
        rfl
  | succ fuel ih =>
    intro deck discard deck' discard' h
    simp only [opening_flip_loop] at h
    split at h
    · exact Option.noConfusion h
    case h_2 top htop =>
      split at h
      · split at h
        · exact Option.noConfusion h
        case h_2 c hc =>
          have hrec := ih _ _ _ _ h
          have hdne : discard ≠ [] := by
            intro hx
            rw [hx] at htop
            exact Option.noConfusion htop
          have hd1 : 1 ≤ discard.length := List.length_pos.mpr hdne
          have hshlen : (sh (deck ++ [top])).length = deck.length + 1 := by
            rw [(hsh (deck ++ [top])).length_eq]
            simp
          have hshne : sh (deck ++ [top]) ≠ [] := by
            intro hx
            rw [hx] at hc
            exact Option.noConfusion hc
          have hsh1 : 1 ≤ (sh (deck ++ [top])).length := List.length_pos.mpr hshne
          rw [List.length_dropLast, List.length_append, List.length_dropLast,
            List.length_cons, List.length_nil] at hrec
          omega
      · injection h with h2
        injection h2 with hd hdc
        subst hd
        subst hdc
        rfl

theorem opening_flip_length {sh : List Card → List Card} (hsh : IsShuffle sh)
    (fuel : Nat) (deck discard deck' discard' : List Card)
    (h : opening_flip sh fuel deck discard = some (deck', discard')) :
    deck'.length + discard'.length = deck.length + discard.length := by
  unfold opening_flip at h
  split at h
  · exact Option.noConfusion h
  case h_2 c hc =>
    have hrec := opening_flip_loop_length hsh _ _ _ _ _ h
    have hdne : deck ≠ [] := by
      intro hx
      rw [hx] at hc
      exact Option.noConfusion hc
    have hd1 : 1 ≤ deck.length := List.length_pos.mpr hdne
    rw [List.length_dropLast, List.length_append, List.length_cons, List.length_nil] at hrec
    omega

/-- C3: the freshly built deck holds exactly 108 cards, and every
engine operation within a round — drawing a card with
reshuffle-on-empty (dealing and every penalty draw go through the same
`give_topdeck_to_player`), flipping cards to the discard including the
opening-flip retry loop, discarding a player's card, and the whole of
`play_card` with its Skip / DrawTwo / Reverse / Wild / WildDrawFour
resolution — preserves the total `|deck| + |discard| + Σ|hand_i|`, so
that the total stays 108 for the whole round. -/
theorem card_conservation (sh : List Card → List Card) (hsh : IsShuffle sh) :
    (init_deck sh).length = 108 ∧
    (∀ (g : Game) (pi : Int) (b : Bool) (g' : Game),
      g.give_topdeck_to_player sh pi = some (b, g') → totalCards g' = totalCards g) ∧
    (∀ (g g' : Game), g.discard_topdeck = some g' → totalCards g' = totalCards g) ∧
    (∀ (fuel : Nat) (deck discard deck' discard' : List Card),
      opening_flip sh fuel deck discard = some (deck', discard') →
      deck'.length + discard'.length = deck.length + discard.length) ∧
    (∀ (g : Game) (i : Nat) (ci : Int) (g' : Game),
      g.discard_player_card i ci = some g' → totalCards g' = totalCards g) ∧
    (∀ (chosenColor : CardColor) (challenge : Bool) (g : Game) (index : Int)
      (b : Bool) (g' : Game),
      g.play_card sh chosenColor challenge index = some (b, g') →
      totalCards g' = totalCards g) :=
  ⟨init_deck_length hsh,
   fun _ _ _ _ h => give_topdeck_totalCards hsh h,
   fun _ _ h => discard_topdeck_totalCards h,
   fun fuel deck discard deck' discard' h => opening_flip_length hsh fuel deck discard deck' discard' h,
   fun _ _ _ _ h => discard_player_card_totalCards h,
   fun _ _ _ _ _ _ h => play_card_totalCards hsh h⟩

theorem card_conservation_witness :
    (init_deck id).length = 108 ∧
    totalCards (⟨[⟨[⟨CardColor.RED, CardType.ONE⟩], 0⟩, ⟨[⟨CardColor.BLUE, CardType.TWO⟩], 0⟩],
      [], [⟨CardColor.RED, CardType.THREE⟩, ⟨CardColor.RED, CardType.SKIP⟩],
      CardColor.RED, -1, true, 0⟩ : Game) =
    totalCards (⟨[⟨[⟨CardColor.RED, CardType.SKIP⟩, ⟨CardColor.RED, CardType.ONE⟩], 0⟩,
      ⟨[⟨CardColor.BLUE, CardType.TWO⟩], 0⟩], [], [⟨CardColor.RED, CardType.THREE⟩],
      CardColor.RED, -1, true, 0⟩ : Game) := by
  have hc := card_conservation id (fun l => List.Perm.refl l)
  exact ⟨hc.1, hc.2.2.2.2.2 CardColor.GREEN false _ 0 true _ rfl⟩

theorem set_getElem_self {α : Type} :
    ∀ (l : List α) (i : Nat) (a : α), l[i]? = some a → l.set i a = l := by
  intro l
  induction l with
  | nil => intro i a ha; simp at ha
  | cons x xs ih =>
    intro i a ha
    cases i with
    | zero =>
      simp only [List.getElem?_cons_zero, Option.some_inj] at ha
      subst ha
      simp
    | succ i =>
      simp only [List.getElem?_cons_succ] at ha
      simp [ih i a ha]

theorem handCount_eq {g : Game} {j : Nat} {p : Player} (h : g.players[j]? = some p) :
    handCount g j = p.cards.length := by
  simp [handCount, h]

theorem sort_hand_eq {g : Game} {pi : Int} {i : Nat} {pl : Player}
    (hi : pyIdx g.players.length pi = some i) (hpl : g.players[i]? = some pl) :
    g.sort_hand pi = some { g with players := g.players.set i pl.sort_cards } := by
  unfold Game.sort_hand
  simp only [hi, hpl]

theorem next_turn_ne {g : Game} (h0 : 0 ≤ g.turn)
    (h1 : g.turn < (g.players.length : Int)) (hn : 2 ≤ g.players.length) :
    g.next_turn.turn ≠ g.turn := by
  rw [next_turn_turn]
  split_ifs <;> omega

theorem give_topdeck_success {sh : List Card → List Card} (hsh : IsShuffle sh)
    {g : Game} {pi : Int} {i : Nat} {pl : Player}
    (hi : pyIdx g.players.length pi = some i) (hpl : g.players[i]? = some pl)
    (hd : g.discard ≠ []) (hsupply : 2 ≤ g.deck.length + g.discard.length) :
    ∃ c g', g.give_topdeck_to_player sh pi = some (true, g') ∧
      g'.players = g.players.set i (pl.receive_card c) ∧
      g'.deck.length + g'.discard.length + 1 = g.deck.length + g.discard.length ∧
      g'.discard ≠ [] ∧
      g'.wild_color = g.wild_color ∧ g'.turn = g.turn ∧
      g'.clockwise = g.clockwise ∧ g'.winner_index = g.winner_index := by
  have hd1 : 1 ≤ g.discard.length := List.length_pos.mpr hd
  by_cases hde : g.deck.isEmpty = true
  · -- reshuffle path
    have hdeck0 : g.deck.length = 0 := by
      rw [List.isEmpty_iff.mp hde]
      rfl
    have hd2 : 2 ≤ g.discard.length := by omega
    obtain ⟨top, htop⟩ : ∃ top, g.discard.getLast? = some top := by
      cases hx : g.discard.getLast? with
      | none => exact absurd (List.getLast?_eq_none_iff.mp hx) hd
      | some top => exact ⟨top, rfl⟩
    have hdrop : g.discard.dropLast.length = g.discard.length - 1 := List.length_dropLast _
    have hshlen : (sh g.discard.dropLast).length = g.discard.length - 1 :=
      (hsh g.discard.dropLast).length_eq.trans hdrop
    have hshne : sh g.discard.dropLast ≠ [] := by
      intro hx
      rw [hx] at hshlen
      simp at hshlen
      omega
    have hie : (sh g.discard.dropLast).isEmpty = false := by
      simp [List.isEmpty_iff, hshne]
    obtain ⟨c, hc⟩ : ∃ c, (sh g.discard.dropLast).getLast? = some c := by
      cases hx : (sh g.discard.dropLast).getLast? with
      | none => exact absurd (List.getLast?_eq_none_iff.mp hx) hshne
      | some c => exact ⟨c, rfl⟩
    refine ⟨c, ⟨g.players.set i (pl.receive_card c), (sh g.discard.dropLast).dropLast,
      [top], g.wild_color, g.winner_index, g.clockwise, g.turn⟩, ?_, rfl, ?_, ?_,
      rfl, rfl, rfl, rfl⟩
    · unfold Game.give_topdeck_to_player
      simp only [hi, hpl, hde, eq_self_iff_true, if_true, htop, hie, Bool.false_eq_true,
        if_false, hc]
    · simp only [List.length_dropLast, List.length_cons, List.length_nil, hshlen]
      omega
    · simp
  · -- deck non-empty path
    have hdne : g.deck ≠ [] := fun hx => by
      rw [hx] at hde
      exact hde rfl
    have hdl1 : 1 ≤ g.deck.length := List.length_pos.mpr hdne
    obtain ⟨c, hc⟩ : ∃ c, g.deck.getLast? = some c := by
      cases hx : g.deck.getLast? with
      | none => exact absurd (List.getLast?_eq_none_iff.mp hx) hdne
      | some c => exact ⟨c, rfl⟩
    have hie : g.deck.isEmpty = false := by
      simp [List.isEmpty_iff, hdne]
    refine ⟨c, ⟨g.players.set i (pl.receive_card c), g.deck.dropLast, g.discard,
      g.wild_color, g.winner_index, g.clockwise, g.turn⟩, ?_, rfl, ?_, hd,
      rfl, rfl, rfl, rfl⟩
    · unfold Game.give_topdeck_to_player
      simp only [hi, hpl, hie, Bool.false_eq_true, if_false, hc]
    · simp only [List.length_dropLast]
      omega

theorem draw_print_loop_success {sh : List Card → List Card} (hsh : IsShuffle sh) :
    ∀ (k : Nat) {g : Game} {pi : Int} {i : Nat} {pl : Player},
      pyIdx g.players.length pi = some i → g.players[i]? = some pl →
      g.discard ≠ [] → k + 1 ≤ g.deck.length + g.discard.length →
      ∃ pl' g', Game.draw_print_loop sh pi k g = some g' ∧
        g'.players = g.players.set i pl' ∧
        pl'.cards.length = pl.cards.length + k ∧ pl'.score = pl.score ∧
        g'.deck.length + g'.discard.length + k = g.deck.length + g.discard.length ∧
        g'.discard ≠ [] ∧ g'.wild_color = g.wild_color ∧ g'.turn = g.turn ∧
        g'.clockwise = g.clockwise ∧ g'.winner_index = g.winner_index := by
  intro k
  induction k with
  | zero =>
    intro g pi i pl hi hpl hd hsupply
    refine ⟨pl, g, ?_, ?_, rfl, rfl, rfl, hd, rfl, rfl, rfl, rfl⟩
    · simp only [Game.draw_print_loop]
    · rw [set_getElem_self g.players i pl hpl]
  | succ k ih =>
    intro g pi i pl hi hpl hd hsupply
    obtain ⟨c, g1, hgive, hpls, hlen, hdisc, hwc, htn, hcw, hwi⟩ :=
      give_topdeck_success hsh hi hpl hd (by omega)
    have hilt : i < g.players.length := (List.getElem?_eq_some_iff.mp hpl).1
    have hlen1 : g1.players.length = g.players.length := by
      rw [hpls, List.length_set]
    have hi1 : pyIdx g1.players.length pi = some i := by
      rw [hlen1]
      exact hi
    have hpl1 : g1.players[i]? = some (pl.receive_card c) := by
      rw [hpls]
      exact List.getElem?_set_self (by omega)
    have hrc : (pl.receive_card c).cards ≠ [] := by
      simp [Player.receive_card]
    obtain ⟨a, hneg⟩ := pyGet_neg_one hrc
    obtain ⟨pl', g', hloop, hpls', hplen', hscore', hsupply', hdisc', hwc', htn', hcw', hwi'⟩ :=
      ih hi1 hpl1 hdisc (by omega)
    refine ⟨pl', g', ?_, ?_, ?_, ?_, (by omega), hdisc', hwc'.trans hwc, htn'.trans htn,
      hcw'.trans hcw, hwi'.trans hwi⟩
    · simp only [Game.draw_print_loop, hgive, hi1, hpl1, hneg]
      exact hloop
    · rw [hpls', hpls, List.set_set]
    · rw [hplen', receive_card_length]
      omega
    · rw [hscore']
      rfl


/-- C4: in WildDrawFour resolution, once the color is chosen and the
turn advances to the next seat (with enough cards in deck plus discard
to cover the penalty draws — each draw goes through the
reshuffle-on-empty path, which is what caps drawn counts by supply):
declining the challenge makes that seat draw exactly 4 cards and be
skipped; challenging when the cached audit says the play was legal
makes the challenger draw exactly 6 and be skipped; challenging when
the audit says illegal makes the original player draw 4 instead while
the challenger is still the seat skipped.  In every case the final turn
is two advances from the original seat. -/
theorem wd4_resolution_outcomes (sh : List Card → List Card) (hsh : IsShuffle sh)
    (col : CardColor) (ch : Bool) (g g' : Game) (pl : Player) (beneath : Card)
    (h0 : 0 ≤ g.turn) (h1 : g.turn < (g.players.length : Int))
    (hn : 2 ≤ g.players.length)
    (hdisc2 : 2 ≤ g.discard.length)
    (hsupply : 7 ≤ g.deck.length + g.discard.length)
    (horig : g.players[g.turn.toNat]? = some pl)
    (hben : pyGet g.discard (-2) = some beneath)
    (h : g.play_wd4 sh col ch = some g') :
    g'.wild_color = col ∧
    g'.players.length = g.players.length ∧
    g'.turn = g.next_turn.next_turn.turn ∧
    (ch = false →
      handCount g' (g.next_turn.turn).toNat = handCount g (g.next_turn.turn).toNat + 4 ∧
      handCount g' g.turn.toNat = handCount g g.turn.toNat) ∧
    (ch = true → wd4_audit pl.cards beneath g.wild_color = true →
      handCount g' (g.next_turn.turn).toNat = handCount g (g.next_turn.turn).toNat + 6 ∧
      handCount g' g.turn.toNat = handCount g g.turn.toNat) ∧
    (ch = true → wd4_audit pl.cards beneath g.wild_color = false →
      handCount g' g.turn.toNat = handCount g g.turn.toNat + 4 ∧
      handCount g' (g.next_turn.turn).toNat = handCount g (g.next_turn.turn).toNat) := by
  have hti : pyIdx g.players.length g.turn = some g.turn.toNat := pyIdx_of_nonneg h0 h1
  have htilt : g.turn.toNat < g.players.length := by omega
  have hdne : g.discard ≠ [] := by
    intro hx
    rw [hx] at hdisc2
    simp at hdisc2
  have hTT : ({ g with wild_color := col } : Game).next_turn.turn = g.next_turn.turn :=
    next_turn_turn_congr rfl rfl rfl
  have hT0 : 0 ≤ g.next_turn.turn ∧ g.next_turn.turn < (g.players.length : Int) := by
    have h2 := @next_turn_range { g with wild_color := col } h0 h1
    rwa [hTT] at h2
  have hne : g.next_turn.turn ≠ g.turn := by
    have h2 := @next_turn_ne { g with wild_color := col } h0 h1 hn
    rwa [hTT] at h2
  have hchallt : (g.next_turn.turn).toNat < g.players.length := by omega
  have hchalne : (g.next_turn.turn).toNat ≠ g.turn.toNat := by omega
  obtain ⟨q, hq⟩ : ∃ q, g.players[(g.next_turn.turn).toNat]? = some q :=
    ⟨_, List.getElem?_eq_getElem hchallt⟩
  unfold Game.play_wd4 at h
  dsimp only [] at h
  simp only [hti, horig, hben] at h
  cases hch : ch with
  | false =>
    subst hch
    simp only [Bool.false_eq_true, if_false] at h
    have hA : pyIdx (({ g with wild_color := col } : Game).next_turn).players.length
        (({ g with wild_color := col } : Game).next_turn.turn) =
        some (g.next_turn.turn).toNat := by
      rw [next_turn_players, hTT]
      exact pyIdx_of_nonneg hT0.1 hT0.2
    have hB : (({ g with wild_color := col } : Game).next_turn).players[
        (g.next_turn.turn).toNat]? = some q := by
      rw [next_turn_players]
      exact hq
    have hC : (({ g with wild_color := col } : Game).next_turn).discard ≠ [] := by
      rw [next_turn_discard]
      exact hdne
    have hD : 4 + 1 ≤ (({ g with wild_color := col } : Game).next_turn).deck.length +
        (({ g with wild_color := col } : Game).next_turn).discard.length := by
      rw [next_turn_deck, next_turn_discard]
      show 4 + 1 ≤ g.deck.length + g.discard.length
      omega
    obtain ⟨pl4, g4, hloop, hpls4, hplen4, hscore4, hsup4, hdisc4, hwc4, htn4, hcw4, hwi4⟩ :=
      draw_print_loop_success hsh 4 hA hB hC hD
    simp only [hloop] at h
    have hy_len : (g.next_turn.turn).toNat <
        (({ g with wild_color := col } : Game).next_turn).players.length := by
      rw [next_turn_players]
      exact hchallt
    have hs4i : pyIdx g4.players.length g4.turn = some (g.next_turn.turn).toNat := by
      rw [htn4, hpls4, List.length_set, hTT]
      rw [hTT] at hA
      exact hA
    have hs4pl : g4.players[(g.next_turn.turn).toNat]? = some pl4 := by
      rw [hpls4]
      exact List.getElem?_set_self hy_len
    have hsorteq := sort_hand_eq hs4i hs4pl
    simp only [hsorteq] at h
    injection h with h2
    subst h2
    have hgp : (Game.next_turn { g4 with players := (g4.players.set
          (g.next_turn.turn).toNat pl4.sort_cards) }).players =
        (({ g with wild_color := col } : Game).next_turn).players.set
          (g.next_turn.turn).toNat pl4.sort_cards := by
      rw [next_turn_players]
      show g4.players.set (g.next_turn.turn).toNat pl4.sort_cards = _
      rw [hpls4, List.set_set]
    have hidx1 : (Game.next_turn { g4 with players := (g4.players.set
          (g.next_turn.turn).toNat pl4.sort_cards) }).players[
        (g.next_turn.turn).toNat]? = some pl4.sort_cards := by
      rw [hgp]
      exact List.getElem?_set_self hy_len
    have hidx2 : (Game.next_turn { g4 with players := (g4.players.set
          (g.next_turn.turn).toNat pl4.sort_cards) }).players[
        g.turn.toNat]? = some pl := by
      rw [hgp, List.getElem?_set_ne hchalne, next_turn_players]
      exact horig
    refine ⟨?_, ?_, ?_, ?_, ?_, ?_⟩
    · calc (Game.next_turn { g4 with players := (g4.players.set
            (g.next_turn.turn).toNat pl4.sort_cards) }).wild_color
          = g4.wild_color := next_turn_wild_color _
        _ = (({ g with wild_color := col } : Game).next_turn).wild_color := hwc4
        _ = col := next_turn_wild_color _
    · rw [next_turn_players]
      show (g4.players.set (g.next_turn.turn).toNat pl4.sort_cards).length = _
      rw [List.length_set, hpls4, List.length_set, next_turn_players]
    · refine next_turn_turn_congr ?_ ?_ ?_
      · show g4.turn = g.next_turn.turn
        rw [htn4, hTT]
      · show g4.clockwise = g.next_turn.clockwise
        rw [hcw4, next_turn_clockwise, next_turn_clockwise]
      · show (g4.players.set (g.next_turn.turn).toNat pl4.sort_cards).length =
          g.next_turn.players.length
        rw [List.length_set, hpls4, List.length_set, next_turn_players, next_turn_players]
    · intro _
      constructor
      · rw [handCount_eq hidx1, handCount_eq hq, sort_cards_length, hplen4]
      · rw [handCount_eq hidx2, handCount_eq horig]
    · intro hx
      exact absurd hx (by simp)
    · intro hx
      exact absurd hx (by simp)
  | true =>
    subst hch
    simp only [if_true] at h
    simp only [next_turn_players, next_turn_deck, next_turn_discard, next_turn_wild_color,
      next_turn_clockwise, next_turn_winner_index, hti, horig] at h
    split at h
    case isTrue haudit =>
      have hA6 : pyIdx (g.players.set g.turn.toNat (Player.shuffle_cards sh pl)).length
          (({ g with wild_color := col } : Game).next_turn.turn) =
          some (g.next_turn.turn).toNat := by
        rw [List.length_set, hTT]
        exact pyIdx_of_nonneg hT0.1 hT0.2
      have hB6 : (g.players.set g.turn.toNat
          (Player.shuffle_cards sh pl))[(g.next_turn.turn).toNat]? = some q := by
        rw [List.getElem?_set_ne (Ne.symm hchalne)]
        exact hq
      obtain ⟨pl6, g4, hloop, hpls4, hplen4, hscore4, hsup4, hdisc4, hwc4, htn4, hcw4, hwi4⟩ :=
        @draw_print_loop_success sh hsh 6
          ⟨g.players.set g.turn.toNat (Player.shuffle_cards sh pl), g.deck, g.discard, col,
            g.winner_index, g.clockwise, ({ g with wild_color := col } : Game).next_turn.turn⟩
          (({ g with wild_color := col } : Game).next_turn.turn)
          (g.next_turn.turn).toNat q hA6 hB6 hdne
          (by show 6 + 1 ≤ g.deck.length + g.discard.length; omega)
      simp only [hloop] at h
      have hs6i : pyIdx g4.players.length g4.turn = some (g.next_turn.turn).toNat := by
        rw [hpls4, List.length_set, htn4]
        exact hA6
      have hs6pl : g4.players[(g.next_turn.turn).toNat]? = some pl6 := by
        rw [hpls4]
        refine List.getElem?_set_self ?_
        show (g.next_turn.turn).toNat <
          (g.players.set g.turn.toNat (Player.shuffle_cards sh pl)).length
        rw [List.length_set]
        exact hchallt
      have hsorteq := sort_hand_eq hs6i hs6pl
      simp only [hsorteq] at h
      injection h with h2
      subst h2
      have hgp : (Game.next_turn { g4 with players := (g4.players.set
            (g.next_turn.turn).toNat pl6.sort_cards) }).players =
          (g.players.set g.turn.toNat (Player.shuffle_cards sh pl)).set
            (g.next_turn.turn).toNat pl6.sort_cards := by
        rw [next_turn_players]
        show g4.players.set (g.next_turn.turn).toNat pl6.sort_cards = _
        rw [hpls4, List.set_set]
      have hidx1 : (Game.next_turn { g4 with players := (g4.players.set
            (g.next_turn.turn).toNat pl6.sort_cards) }).players[
          (g.next_turn.turn).toNat]? = some pl6.sort_cards := by
        rw [hgp]
        refine List.getElem?_set_self ?_
        rw [List.length_set]
        exact hchallt
      have hidx2 : (Game.next_turn { g4 with players := (g4.players.set
            (g.next_turn.turn).toNat pl6.sort_cards) }).players[
          g.turn.toNat]? = some (Player.shuffle_cards sh pl) := by
        rw [hgp, List.getElem?_set_ne hchalne]
        exact List.getElem?_set_self htilt
      refine ⟨?_, ?_, ?_, ?_, ?_, ?_⟩
      · calc (Game.next_turn { g4 with players := (g4.players.set
              (g.next_turn.turn).toNat pl6.sort_cards) }).wild_color
            = g4.wild_color := next_turn_wild_color _
          _ = col := hwc4
      · rw [next_turn_players]
        show (g4.players.set (g.next_turn.turn).toNat pl6.sort_cards).length = _
        rw [List.length_set, hpls4, List.length_set, List.length_set]
      · refine next_turn_turn_congr ?_ ?_ ?_
        · show g4.turn = g.next_turn.turn
          rw [htn4]
          exact hTT
        · show g4.clockwise = g.next_turn.clockwise
          rw [hcw4, next_turn_clockwise]
        · show (g4.players.set (g.next_turn.turn).toNat pl6.sort_cards).length =
            g.next_turn.players.length
          rw [List.length_set, hpls4, List.length_set, List.length_set, next_turn_players]
      · intro hx
        exact absurd hx (by simp)
      · intro _ _
        constructor
        · rw [handCount_eq hidx1, handCount_eq hq, sort_cards_length, hplen4]
        · rw [handCount_eq hidx2, handCount_eq horig, shuffle_cards_length hsh]
      · intro _ hfalse
        rw [haudit] at hfalse
        exact absurd hfalse (by simp)
    case isFalse haudit =>
      have ha' : wd4_audit pl.cards beneath g.wild_color = false := by
        revert haudit
        cases wd4_audit pl.cards beneath g.wild_color <;> simp
      have hA4 : pyIdx (g.players.set g.turn.toNat (Player.shuffle_cards sh pl)).length
          g.turn = some g.turn.toNat := by
        rw [List.length_set]
        exact hti
      have hB4 : (g.players.set g.turn.toNat
          (Player.shuffle_cards sh pl))[g.turn.toNat]? =
          some (Player.shuffle_cards sh pl) :=
        List.getElem?_set_self htilt
      obtain ⟨pl4, g4, hloop, hpls4, hplen4, hscore4, hsup4, hdisc4, hwc4, htn4, hcw4, hwi4⟩ :=
        @draw_print_loop_success sh hsh 4
          ⟨g.players.set g.turn.toNat (Player.shuffle_cards sh pl), g.deck, g.discard, col,
            g.winner_index, g.clockwise, ({ g with wild_color := col } : Game).next_turn.turn⟩
          g.turn g.turn.toNat (Player.shuffle_cards sh pl) hA4 hB4 hdne
          (by show 4 + 1 ≤ g.deck.length + g.discard.length; omega)
      simp only [hloop] at h
      have hs4i : pyIdx g4.players.length g.turn = some g.turn.toNat := by
        rw [hpls4, List.length_set]
        exact hA4
      have hs4pl : g4.players[g.turn.toNat]? = some pl4 := by
        rw [hpls4]
        refine List.getElem?_set_self ?_
        show g.turn.toNat <
          (g.players.set g.turn.toNat (Player.shuffle_cards sh pl)).length
        rw [List.length_set]
        exact htilt
      have hsorteq := sort_hand_eq hs4i hs4pl
      simp only [hsorteq] at h
      injection h with h2
      subst h2
      have hgp : (Game.next_turn { g4 with players := (g4.players.set
            g.turn.toNat pl4.sort_cards) }).players =
          (g.players.set g.turn.toNat (Player.shuffle_cards sh pl)).set
            g.turn.toNat pl4.sort_cards := by
        rw [next_turn_players]
        show g4.players.set g.turn.toNat pl4.sort_cards = _
        rw [hpls4, List.set_set]
      have hgp2 : (Game.next_turn { g4 with players := (g4.players.set
            g.turn.toNat pl4.sort_cards) }).players =
          g.players.set g.turn.toNat pl4.sort_cards := by
        rw [hgp, List.set_set]
      have hidx1 : (Game.next_turn { g4 with players := (g4.players.set
            g.turn.toNat pl4.sort_cards) }).players[g.turn.toNat]? =
          some pl4.sort_cards := by
        rw [hgp2]
        exact List.getElem?_set_self htilt
      have hidx2 : (Game.next_turn { g4 with players := (g4.players.set
            g.turn.toNat pl4.sort_cards) }).players[(g.next_turn.turn).toNat]? =
          some q := by
        rw [hgp2, List.getElem?_set_ne (Ne.symm hchalne)]
        exact hq
      refine ⟨?_, ?_, ?_, ?_, ?_, ?_⟩
      · calc (Game.next_turn { g4 with players := (g4.players.set
              g.turn.toNat pl4.sort_cards) }).wild_color
            = g4.wild_color := next_turn_wild_color _
          _ = col := hwc4
      · rw [next_turn_players]
        show (g4.players.set g.turn.toNat pl4.sort_cards).length = _
        rw [List.length_set, hpls4, List.length_set, List.length_set]
      · refine next_turn_turn_congr ?_ ?_ ?_
        · show g4.turn = g.next_turn.turn
          rw [htn4]
          exact hTT
        · show g4.clockwise = g.next_turn.clockwise
          rw [hcw4, next_turn_clockwise]
        · show (g4.players.set g.turn.toNat pl4.sort_cards).length =
            g.next_turn.players.length
          rw [List.length_set, hpls4, List.length_set, List.length_set, next_turn_players]
      · intro hx
        exact absurd hx (by simp)
      · intro _ htrue
        rw [ha'] at htrue
        exact absurd htrue (by simp)
      · intro _ _
        constructor
        · rw [handCount_eq hidx1, handCount_eq horig, sort_cards_length, hplen4,
            shuffle_cards_length hsh]
        · rw [handCount_eq hidx2, handCount_eq hq]

theorem wd4_resolution_outcomes_witness :
    ∃ g', Game.play_wd4 id CardColor.RED false
      ⟨[⟨[⟨CardColor.RED, CardType.ONE⟩], 0⟩, ⟨[⟨CardColor.YELLOW, CardType.TWO⟩], 0⟩],
        [⟨CardColor.GREEN, CardType.ONE⟩, ⟨CardColor.GREEN, CardType.TWO⟩,
         ⟨CardColor.GREEN, CardType.THREE⟩, ⟨CardColor.GREEN, CardType.FOUR⟩,
         ⟨CardColor.GREEN, CardType.FIVE⟩, ⟨CardColor.GREEN, CardType.SIX⟩,
         ⟨CardColor.GREEN, CardType.SEVEN⟩],
        [⟨CardColor.BLUE, CardType.TWO⟩, ⟨CardColor.BLACK, CardType.WILD_DRAW_FOUR⟩],
        CardColor.BLACK, -1, true, 0⟩ = some g' ∧
      g'.wild_color = CardColor.RED ∧ g'.turn = 0 ∧
      handCount g' 1 = 1 + 4 ∧ handCount g' 0 = 1 := by
  have h := wd4_resolution_outcomes id (fun l => List.Perm.refl l) CardColor.RED false
    ⟨[⟨[⟨CardColor.RED, CardType.ONE⟩], 0⟩, ⟨[⟨CardColor.YELLOW, CardType.TWO⟩], 0⟩],
      [⟨CardColor.GREEN, CardType.ONE⟩, ⟨CardColor.GREEN, CardType.TWO⟩,
       ⟨CardColor.GREEN, CardType.THREE⟩, ⟨CardColor.GREEN, CardType.FOUR⟩,
       ⟨CardColor.GREEN, CardType.FIVE⟩, ⟨CardColor.GREEN, CardType.SIX⟩,
       ⟨CardColor.GREEN, CardType.SEVEN⟩],
      [⟨CardColor.BLUE, CardType.TWO⟩, ⟨CardColor.BLACK, CardType.WILD_DRAW_FOUR⟩],
      CardColor.BLACK, -1, true, 0⟩
    ⟨[⟨[⟨CardColor.RED, CardType.ONE⟩], 0⟩,
      ⟨[⟨CardColor.YELLOW, CardType.TWO⟩, ⟨CardColor.GREEN, CardType.FOUR⟩,
        ⟨CardColor.GREEN, CardType.FIVE⟩, ⟨CardColor.GREEN, CardType.SIX⟩,
        ⟨CardColor.GREEN, CardType.SEVEN⟩], 0⟩],
      [⟨CardColor.GREEN, CardType.ONE⟩, ⟨CardColor.GREEN, CardType.TWO⟩,
       ⟨CardColor.GREEN, CardType.THREE⟩],
      [⟨CardColor.BLUE, CardType.TWO⟩, ⟨CardColor.BLACK, CardType.WILD_DRAW_FOUR⟩],
      CardColor.RED, -1, true, 0⟩
    ⟨[⟨CardColor.RED, CardType.ONE⟩], 0⟩ ⟨CardColor.BLUE, CardType.TWO⟩
    (by decide) (by decide) (by decide) (by decide) (by decide) rfl rfl rfl
  exact ⟨_, rfl, h.1, h.2.2.1, (h.2.2.2.1 rfl).1, (h.2.2.2.1 rfl).2⟩
